import Mathlib

/-!
# Edge detection sample (`edgeDetectionNPP.cpp`): file naming, format choice,
# input selection, row copies and the control flow of `main`

The C++ strings are embedded as lists of characters, `std::string::npos` as
`none`.  The collaborators that are not part of the source file (FreeImage,
the NPP filters, the CUDA helper functions, the file system) are parameters
of the model.
-/

set_option autoImplicit false

namespace EdgeDetectionNPP

/-! ## Strings -/

/-- A `std::string`, as the list of its characters. -/
abbrev Str := List Char

/-- `s.rfind(c)`: the position of the last occurrence of `c` in `s`,
`none` standing for `std::string::npos`. -/
def rfind : Str → Char → Option Nat
  | [], _ => none
  | x :: xs, c =>
    match rfind xs c with
    | some i => some (i + 1)
    | none => if x = c then some 0 else none

/-- `s.substr(pos)`: the characters from position `pos` on. -/
def substrFrom (s : Str) (pos : Nat) : Str := s.drop pos

/-- `s.substr(0, n)`: the first `n` characters. -/
def substrTo (s : Str) (n : Nat) : Str := s.take n

/-! ## Output format of `saveImageGrayscale` (lines 121-133) -/

/-- The values of `FREE_IMAGE_FORMAT` the program names, and the rest. -/
inductive FIF where
  | unknown
  | bmp
  | jpeg
  | pgm
  | png
  | other (n : Nat)
  deriving DecidableEq, Repr

/-- The format `saveImageGrayscale` passes to `FreeImage_Save` for the file
name `rFileName`. -/
def saveFormat (rFileName : Str) : FIF :=
  match rfind rFileName '.' with
  | none => FIF.pgm
  | some dot =>
    let ext := substrFrom rFileName (dot + 1)
    if ext = "png".toList ∨ ext = "PNG".toList then FIF.png
    else if ext = "bmp".toList ∨ ext = "BMP".toList then FIF.bmp
    else if ext = "jpg".toList ∨ ext = "JPG".toList ∨ ext = "jpeg".toList ∨ ext = "JPEG".toList then
      FIF.jpeg
    else FIF.pgm

/-! ## Output names built by `main` (lines 264-287) -/

/-- The variable `baseFilename` of `main` after line 284: the text after the
last `/` (after the last backslash when there is no `/`), cut at its last
`.` when it has one. -/
def baseFilename (sFilename : Str) : Str :=
  let lastSlash :=
    match rfind sFilename '/' with
    | some i => some i
    | none => rfind sFilename '\\'
  let base :=
    match lastSlash with
    | some i => substrFrom sFilename (i + 1)
    | none => sFilename
  match rfind base '.' with
  | some dot => substrTo base dot
  | none => base

/-- The variable `sResultFilenameH` of `main` (line 286). -/
def resultFilenameH (sFilename : Str) : Str :=
  "output/".toList ++ baseFilename sFilename ++ "_edges_horizontal.png".toList

/-- The variable `sResultFilenameV` of `main` (line 287). -/
def resultFilenameV (sFilename : Str) : Str :=
  "output/".toList ++ baseFilename sFilename ++ "_edges_vertical.png".toList

/-- The input file name of the specification's naming rule: the path with
its directory part (everything up to the last `/`) removed. -/
def specFileName (path : Str) : Str :=
  match rfind path '/' with
  | some i => substrFrom path (i + 1)
  | none => path

/-- The `<basename>` of the specification's naming rule: the input file name
with its last extension removed. -/
def specBasename (path : Str) : Str :=
  match rfind (specFileName path) '.' with
  | some dot => substrTo (specFileName path) dot
  | none => specFileName path

/-- The `<ext>` of the specification's naming rule: the extension of the
input file name, the text after its last `.`. -/
def specExtension (path : Str) : Str :=
  match rfind (specFileName path) '.' with
  | some dot => substrFrom (specFileName path) (dot + 1)
  | none => []

/-- The output path of the specification's naming rule,
`output/<basename>_edges_<which>.<ext>`. -/
def specResultFilename (which : Str) (path : Str) : Str :=
  "output/".toList ++ specBasename path ++ "_edges_".toList ++ which ++ ".".toList
    ++ specExtension path

/-! ## Input selection of `main` (lines 179-206) -/

/-- The array `testImages` of `main`. -/
def testImages : List Str :=
  ["input/Lena.pgm".toList, "input/sloth.png".toList, "input/grey-sloth.png".toList,
   "input/th.jpeg".toList]

/-- The `for` loop over `testImages` (lines 190-201): the first image whose
stream is `good()`; `none` when the loop ends with `found == false`. -/
def findTestImage (canOpen : Str → Bool) : List Str → Option Str
  | [] => none
  | img :: rest => if canOpen img then some img else findTestImage canOpen rest

/-- The value of `sFilename` at line 207.  `hasInputFlag` is the result of
`checkCmdLineFlag(argc, argv, "input")` and `filePath` the string stored by
`getCmdLineArgumentString`; `canOpen p` is `std::ifstream(p).good()`. -/
def selectInput (hasInputFlag : Bool) (filePath : Str) (canOpen : Str → Bool) : Str :=
  if hasInputFlag then "input/".toList ++ filePath
  else
    match findTestImage canOpen testImages with
    | some img => img
    | none => "input/Lena.pgm".toList

/-! ## Images and row copies -/

/-- A byte buffer: the byte at each address, counted from the buffer's first
byte.  Line pointers move over these addresses by exact integer steps. -/
abbrev Mem := Int → Nat

/-- The product of two `unsigned int` values. -/
def umul32 (a b : Nat) : Nat := (a * b) % 2 ^ 32

/-- The `unsigned int` value of `a - 1`. -/
def udec32 (a : Nat) : Nat := (a + 2 ^ 32 - 1) % 2 ^ 32

/-- `memcpy(dst + d, src + s, n)`: the destination buffer afterwards. -/
def memcpy (dst : Mem) (d : Int) (src : Mem) (s : Int) (n : Nat) : Mem :=
  fun a => if d ≤ a ∧ a < d + n then src (s + (a - d)) else dst a

/-- The row loop shared by the loader (lines 89-94) and the saver (lines
114-119): `lines` times, copy `width` bytes from the source line to the
destination line, then move both line pointers by their steps. -/
def copyLines : Nat → Nat → Mem → Int → Int → Mem → Int → Int → Mem
  | 0, _, _, _, _, dst, _, _ => dst
  | lines + 1, width, src, pSrcLine, srcStep, dst, pDstLine, dstStep =>
    copyLines lines width src (pSrcLine + srcStep) srcStep
      (memcpy dst pDstLine src pSrcLine width) (pDstLine + dstStep) dstStep

/-- The values of `FREE_IMAGE_COLOR_TYPE`. -/
inductive ColorType where
  | miniswhite
  | minisblack
  | rgb
  | palette
  | rgbalpha
  | cmyk
  deriving DecidableEq, Repr

/-- A FreeImage bitmap (`FIBITMAP`): what the accessors `FreeImage_GetWidth`,
`GetHeight`, `GetPitch`, `GetBPP`, `GetColorType` and `GetBits` return. -/
structure FIBitmap where
  width : Nat
  height : Nat
  pitch : Nat
  bpp : Nat
  colorType : ColorType
  bits : Mem

/-- A host image (`npp::ImageCPU_8u_C1`): `width()`, `height()`, `pitch()`
and the buffer behind `data()`. -/
structure ImageCPU where
  width : Nat
  height : Nat
  pitch : Nat
  data : Mem

/-- Pixel `(x, y)` of a host image: the byte at `data() + y * pitch() + x`. -/
def ImageCPU.pixel (img : ImageCPU) (x y : Nat) : Nat :=
  img.data ((y : Int) * img.pitch + x)

/-- Lines 84-94 of `loadImageAutoGrayscale`: the rows of `pBitmap` copied into
the freshly constructed `oImage`, last scanline first.  The start offset
`nSrcPitch * (FreeImage_GetHeight(pBitmap) - 1)` is an `unsigned int`
product. -/
def copyBitmapToImage (pBitmap : FIBitmap) (oImage : ImageCPU) : ImageCPU :=
  let nSrcPitch := pBitmap.pitch
  let pSrcLine : Int := ((umul32 nSrcPitch (udec32 pBitmap.height) : Nat) : Int)
  let nDstPitch := oImage.pitch
  { oImage with
    data := copyLines oImage.height oImage.width pBitmap.bits pSrcLine (-(nSrcPitch : Int))
      oImage.data 0 nDstPitch }

/-- Lines 109-119 of `saveImageGrayscale`: the rows of `rImage` copied into
the allocated `pResultBitmap`, first row into the last scanline.  The start
offset `nDstPitch * (rImage.height() - 1)` is an `unsigned int` product. -/
def copyImageToBitmap (rImage : ImageCPU) (pResultBitmap : FIBitmap) : FIBitmap :=
  let nDstPitch := pResultBitmap.pitch
  let pDstLine : Int := ((umul32 nDstPitch (udec32 rImage.height) : Nat) : Int)
  let nSrcPitch := rImage.pitch
  { pResultBitmap with
    bits := copyLines rImage.height rImage.width rImage.data 0 nSrcPitch
      pResultBitmap.bits pDstLine (-(nDstPitch : Int)) }

/-! ## The collaborators -/

/-- The FreeImage calls of the program, as functions of their arguments. -/
structure FreeImage where
  getFileType : Str → FIF
  getFIFFromFilename : Str → FIF
  fifSupportsReading : FIF → Bool
  load : FIF → Str → Option FIBitmap
  convertToGreyscale : FIBitmap → Option FIBitmap
  allocate : Nat → Nat → Nat → Option FIBitmap
  save : FIF → FIBitmap → Str → Bool

/-- An image allocator: the pitch of the buffer allocated for a width and a
height, `none` when the image constructor raises. -/
abbrev Allocator := Nat → Nat → Option Nat

/-- `NppiBorderType`, as far as the program names it. -/
inductive BorderType where
  | replicate
  | other
  deriving DecidableEq, Repr

/-- The arguments of one `nppiFilterSobel...Border_8u_C1R` call. -/
structure SobelCall where
  pSrc : Mem
  nSrcStep : Nat
  oSrcSize : Int × Int
  oSrcOffset : Int × Int
  pDst : Mem
  nDstStep : Nat
  oSizeROI : Int × Int
  eBorderType : BorderType

/-- Everything outside the source file that a run of `main` depends on.  The
file system and the libraries answer as functions of their arguments;
`hostAlloc n` and `deviceAlloc n` answer the `n`-th host and device image
construction of the run. -/
structure World where
  checkCudaCapabilities : Bool
  hasInputFlag : Bool
  filePath : Str
  canOpen : Str → Bool
  fi : FreeImage
  hostAlloc : Nat → Allocator
  deviceAlloc : Nat → Allocator
  fresh : Mem
  sobelHoriz : SobelCall → Option Mem
  sobelVert : SobelCall → Option Mem

/-! ## `loadImageAutoGrayscale` and `saveImageGrayscale` -/

/-- Lines 31-79 of `loadImageAutoGrayscale`: the 8-bit grayscale bitmap
`pBitmap` the row copy starts from, or the message of the exception raised. -/
def decodeBitmap (fi : FreeImage) (rFileName : Str) : Except String FIBitmap :=
  let eFormat := fi.getFileType rFileName
  let eFormat := if eFormat = FIF.unknown then fi.getFIFFromFilename rFileName else eFormat
  if eFormat = FIF.unknown then .error "Unknown image format"
  else
    let pBitmap := if fi.fifSupportsReading eFormat then fi.load eFormat rFileName else none
    match pBitmap with
    | none => .error "Failed to load image"
    | some bitmap =>
      let pBitmap :=
        if bitmap.colorType ≠ ColorType.minisblack ∨ bitmap.bpp ≠ 8 then
          fi.convertToGreyscale bitmap
        else some bitmap
      match pBitmap with
      | none => .error "Failed to convert to grayscale"
      | some bitmap => .ok bitmap

/-- `loadImageAutoGrayscale` (lines 29-98): the image swapped into `rImage`,
or the message of the exception raised.  `hostAlloc` and `fresh` give the
pitch and the initial bytes of the image constructed at line 82. -/
def loadImageAutoGrayscale (fi : FreeImage) (hostAlloc : Allocator) (fresh : Mem)
    (rFileName : Str) : Except String ImageCPU :=
  match decodeBitmap fi rFileName with
  | .error e => .error e
  | .ok pBitmap =>
    match hostAlloc pBitmap.width pBitmap.height with
    | none => .error "image allocation"
    | some pitch =>
      .ok (copyBitmapToImage pBitmap ⟨pBitmap.width, pBitmap.height, pitch, fresh⟩)

/-- A file written by `FreeImage_Save`. -/
structure SavedFile where
  name : Str
  format : FIF
  bitmap : FIBitmap

/-- `saveImageGrayscale` (lines 101-142): the file written, or the message of
the exception raised. -/
def saveImageGrayscale (fi : FreeImage) (rFileName : Str) (rImage : ImageCPU) :
    Except String SavedFile :=
  match fi.allocate rImage.width rImage.height 8 with
  | none => .error "Failed to allocate result image"
  | some pResultBitmap =>
    let bitmap := copyImageToBitmap rImage pResultBitmap
    let format := saveFormat rFileName
    if fi.save format bitmap rFileName then .ok ⟨rFileName, format, bitmap⟩
    else .error "Failed to save result image"

/-! ## The filter stage of `main` (lines 231-262) -/

/-- A device image (`npp::ImageNPP_8u_C1`). -/
structure ImageNPP where
  width : Nat
  height : Nat
  pitch : Nat
  data : Mem

/-- The conversion `(int)` of an `unsigned int` value. -/
def castInt (n : Nat) : Int :=
  if n % 2 ^ 32 < 2 ^ 31 then ((n % 2 ^ 32 : Nat) : Int) else ((n % 2 ^ 32 : Nat) : Int) - 2 ^ 32

/-- The conversion of an `int` argument to an `unsigned int` parameter. -/
def castUInt (i : Int) : Nat := (i % 2 ^ 32).toNat

/-- Modelled from the spec: the constructor `ImageNPP_8u_C1(const ImageCPU_8u_C1 &)`
of the image classes, which are not part of the source file: a device image
of the host image's width and height holding its pixel rows (the input
transfer); `none` when the allocation raises. -/
def ImageNPP.ofHost (deviceAlloc : Allocator) (fresh : Mem) (img : ImageCPU) : Option ImageNPP :=
  match deviceAlloc img.width img.height with
  | none => none
  | some pitch =>
    some ⟨img.width, img.height, pitch,
      copyLines img.height img.width img.data 0 img.pitch fresh 0 pitch⟩

/-- Modelled from the spec: the constructor `ImageNPP_8u_C1(unsigned int, unsigned int)`:
a device image of the given width and height; `none` when the allocation
raises. -/
def ImageNPP.create (deviceAlloc : Allocator) (fresh : Mem) (nWidth nHeight : Nat) :
    Option ImageNPP :=
  match deviceAlloc nWidth nHeight with
  | none => none
  | some pitch => some ⟨nWidth, nHeight, pitch, fresh⟩

/-- Modelled from the spec: `ImageCPU_8u_C1 oHost(oDevice.size())` followed by
`oDevice.copyTo(oHost.data(), oHost.pitch())`: a host image of the device
image's size holding its pixel rows (the output transfer); `none` when the
allocation raises. -/
def ImageNPP.toHost (hostAlloc : Allocator) (fresh : Mem) (dev : ImageNPP) : Option ImageCPU :=
  match hostAlloc dev.width dev.height with
  | none => none
  | some pitch =>
    some ⟨dev.width, dev.height, pitch,
      copyLines dev.height dev.width dev.data 0 dev.pitch fresh 0 pitch⟩

/-- The local variables of `main` after line 262. -/
structure SobelStage where
  oDeviceSrc : ImageNPP
  oSrcSize : Int × Int
  oSrcOffset : Int × Int
  oSizeROI : Int × Int
  callH : SobelCall
  callV : SobelCall
  oDeviceDstH : ImageNPP
  oDeviceDstV : ImageNPP
  oHostDstH : ImageCPU
  oHostDstV : ImageCPU

/-- An exception raised in the filter stage, with the filter calls made
before it. -/
structure StageFailure where
  message : String
  calls : List SobelCall

/-- Lines 231-262 of `main`.  Modelled from the spec: the macro `NPP_CHECK_NPP`,
which is not part of the source file, raises when the filter call reports an
error (`none`). -/
def sobelStage (w : World) (oHostSrc : ImageCPU) : Except StageFailure SobelStage :=
  match ImageNPP.ofHost (w.deviceAlloc 0) w.fresh oHostSrc with
  | none => .error ⟨"device allocation", []⟩
  | some oDeviceSrc =>
    let oSrcSize : Int × Int := (castInt oDeviceSrc.width, castInt oDeviceSrc.height)
    let oSrcOffset : Int × Int := (0, 0)
    let oSizeROI : Int × Int := (castInt oDeviceSrc.width, castInt oDeviceSrc.height)
    match ImageNPP.create (w.deviceAlloc 1) w.fresh (castUInt oSizeROI.1) (castUInt oSizeROI.2) with
    | none => .error ⟨"device allocation", []⟩
    | some oDeviceDstH =>
      match ImageNPP.create (w.deviceAlloc 2) w.fresh (castUInt oSizeROI.1) (castUInt oSizeROI.2) with
      | none => .error ⟨"device allocation", []⟩
      | some oDeviceDstV =>
        let callH : SobelCall :=
          ⟨oDeviceSrc.data, oDeviceSrc.pitch, oSrcSize, oSrcOffset,
            oDeviceDstH.data, oDeviceDstH.pitch, oSizeROI, BorderType.replicate⟩
        match w.sobelHoriz callH with
        | none => .error ⟨"NPP_CHECK_NPP", [callH]⟩
        | some dataH =>
          let callV : SobelCall :=
            ⟨oDeviceSrc.data, oDeviceSrc.pitch, oSrcSize, oSrcOffset,
              oDeviceDstV.data, oDeviceDstV.pitch, oSizeROI, BorderType.replicate⟩
          match w.sobelVert callV with
          | none => .error ⟨"NPP_CHECK_NPP", [callH, callV]⟩
          | some dataV =>
            let oDeviceDstH := { oDeviceDstH with data := dataH }
            let oDeviceDstV := { oDeviceDstV with data := dataV }
            match ImageNPP.toHost (w.hostAlloc 1) w.fresh oDeviceDstH with
            | none => .error ⟨"image allocation", [callH, callV]⟩
            | some oHostDstH =>
              match ImageNPP.toHost (w.hostAlloc 2) w.fresh oDeviceDstV with
              | none => .error ⟨"image allocation", [callH, callV]⟩
              | some oHostDstV =>
                .ok ⟨oDeviceSrc, oSrcSize, oSrcOffset, oSizeROI, callH, callV,
                  oDeviceDstH, oDeviceDstV, oHostDstH, oHostDstV⟩

/-! ## `main` -/

/-- `EXIT_SUCCESS`. -/
def EXIT_SUCCESS : Nat := 0

/-- `EXIT_FAILURE`. -/
def EXIT_FAILURE : Nat := 1

/-- `printfNPPinfo` (lines 144-159): the value of `checkCudaCapabilities(1, 0)`. -/
def printfNPPinfo (w : World) : Bool :=
  let bVal := w.checkCudaCapabilities
  bVal

/-- What a run of `main` did: its exit status, the input path once chosen,
the loader calls, the filter calls and the files written. -/
structure Run where
  exitCode : Nat
  selected : Option Str
  loadCalls : List Str
  filterCalls : List SobelCall
  written : List SavedFile

/-- `main` (lines 161-327), for the runs in which `findCudaDevice` returns.
The two `catch` clauses turn every exception into `exit(EXIT_FAILURE)`. -/
def main (w : World) : Run :=
  if printfNPPinfo w = false then ⟨EXIT_SUCCESS, none, [], [], []⟩
  else
    let sFilename := selectInput w.hasInputFlag w.filePath w.canOpen
    if w.canOpen sFilename = false then ⟨EXIT_FAILURE, some sFilename, [], [], []⟩
    else
      match loadImageAutoGrayscale w.fi (w.hostAlloc 0) w.fresh sFilename with
      | .error _ => ⟨EXIT_FAILURE, some sFilename, [sFilename], [], []⟩
      | .ok oHostSrc =>
        match sobelStage w oHostSrc with
        | .error failure => ⟨EXIT_FAILURE, some sFilename, [sFilename], failure.calls, []⟩
        | .ok stage =>
          let sResultFilenameH := resultFilenameH sFilename
          let sResultFilenameV := resultFilenameV sFilename
          match saveImageGrayscale w.fi sResultFilenameH stage.oHostDstH with
          | .error _ =>
            ⟨EXIT_FAILURE, some sFilename, [sFilename], [stage.callH, stage.callV], []⟩
          | .ok fileH =>
            match saveImageGrayscale w.fi sResultFilenameV stage.oHostDstV with
            | .error _ =>
              ⟨EXIT_FAILURE, some sFilename, [sFilename], [stage.callH, stage.callV], [fileH]⟩
            | .ok fileV =>
              ⟨EXIT_SUCCESS, some sFilename, [sFilename], [stage.callH, stage.callV],
                [fileH, fileV]⟩

/-- The names of the files a run wrote. -/
def Run.writtenNames (r : Run) : List Str := r.written.map SavedFile.name

/-! ## Sample inputs -/

/-- A 3 x 2 host image with pitch 4. -/
def sampleImage : ImageCPU := ⟨3, 2, 4, fun a => (a.toNat * 7 + 1) % 256⟩

/-- A 3 x 2 bitmap of 8-bit grayscale with pitch 4. -/
def sampleBitmap : FIBitmap :=
  ⟨3, 2, 4, 8, ColorType.minisblack, fun a => (a.toNat * 5 + 2) % 256⟩

/-- The bitmap `FreeImage_Allocate(3, 2, 8)` gives: pitch 4, zeroed. -/
def sampleAllocated : FIBitmap := ⟨3, 2, 4, 8, ColorType.minisblack, fun _ => 0⟩

/-- A FreeImage that reads every file as `sampleBitmap` in the PGM format,
allocates bitmaps of pitch `4 * ((w + 3) / 4)`, and saves when `saves`. -/
def sampleFreeImage (saves : Bool) : FreeImage where
  getFileType := fun _ => FIF.pgm
  getFIFFromFilename := fun _ => FIF.unknown
  fifSupportsReading := fun _ => true
  load := fun _ _ => some sampleBitmap
  convertToGreyscale := fun _ => none
  allocate := fun w h bpp => some ⟨w, h, 4 * ((w + 3) / 4), bpp, ColorType.minisblack, fun _ => 0⟩
  save := fun _ _ _ => saves

/-- A world in which every stage succeeds when `capable`, `opens` and `saves`. -/
def sampleWorld (capable opens saves : Bool) : World where
  checkCudaCapabilities := capable
  hasInputFlag := false
  filePath := []
  canOpen := fun _ => opens
  fi := sampleFreeImage saves
  hostAlloc := fun _ w _ => some w
  deviceAlloc := fun _ w _ => some (512 * ((w + 511) / 512))
  fresh := fun _ => 0
  sobelHoriz := fun c => some c.pSrc
  sobelVert := fun c => some c.pSrc

/-- A 1 x 3 bitmap of pitch `2 ^ 31`: its scanlines start at the offsets 0,
`2 ^ 31` and `2 ^ 32`; the byte at `2 ^ 32` is 7, every other byte 9. -/
def wideBitmap : FIBitmap :=
  ⟨1, 3, 2 ^ 31, 8, ColorType.minisblack, fun a => if a = 2 ^ 32 then 7 else 9⟩

/-- A FreeImage that reads every file as `wideBitmap`. -/
def wideFreeImage : FreeImage :=
  { sampleFreeImage true with load := fun _ _ => some wideBitmap }

/-- A 1 x 3 host image with the pixels 1, 2, 3. -/
def tallImage : ImageCPU := ⟨1, 3, 1, fun a => a.toNat + 1⟩

/-- A zeroed 1 x 3 bitmap of pitch `2 ^ 31`. -/
def wideAllocated : FIBitmap := ⟨1, 3, 2 ^ 31, 8, ColorType.minisblack, fun _ => 0⟩

/-- The bytes of a bitmap's own buffer (the addresses from 0 on), as a codec
writes and reads them back; zero below the buffer. -/
def bufferOf (b : FIBitmap) : FIBitmap :=
  { b with bits := fun a => if 0 ≤ a then b.bits a else 0 }

/-- A FreeImage that allocates `wideAllocated` and saves every file. -/
def wideSaver : FreeImage :=
  { sampleFreeImage true with allocate := fun _ _ _ => some wideAllocated }

/-- A FreeImage that reads every file as the buffer of `tallImage` saved into
`wideAllocated`. -/
def wideLoader : FreeImage :=
  { sampleFreeImage true with
    load := fun _ _ => some (bufferOf (copyImageToBitmap tallImage wideAllocated)) }

/-- A host image of width `2 ^ 31 + 1` and height 1. -/
def hugeImage : ImageCPU := ⟨2147483649, 1, 2147483649, fun _ => 0⟩

/-! ## Facts about `rfind` -/

theorem rfind_eq_none (s : Str) (c : Char) (h : c ∉ s) : rfind s c = none := by
  induction s with
  | nil => rfl
  | cons x xs ih =>
    have hx : ¬ x = c := fun e => h (by simp [e])
    have hxs : c ∉ xs := fun e => h (by simp [e])
    simp [rfind, ih hxs, hx]

theorem rfind_append_cons (p t : Str) (c : Char) (h : c ∉ t) :
    rfind (p ++ c :: t) c = some p.length := by
  induction p with
  | nil => simp [rfind, rfind_eq_none t c h]
  | cons x xs ih => simp [rfind, ih]

/-- The base name of `dir/file` where `file = stem.ext` has no `/` and `ext`
no `.` is `stem`. -/
theorem baseFilename_stem (dir stem ext : Str) (hs : '/' ∉ stem) (he : '/' ∉ ext)
    (hdot : '.' ∉ ext) : baseFilename (dir ++ '/' :: (stem ++ '.' :: ext)) = stem := by
  have hfile : '/' ∉ stem ++ '.' :: ext := by
    simp only [List.mem_append, List.mem_cons, not_or]
    exact ⟨hs, by decide, he⟩
  simp [baseFilename, rfind_append_cons dir _ '/' hfile, substrFrom, substrTo,
    rfind_append_cons stem ext '.' hdot]

/-- The base name of `dir/file` where `file` has neither `/` nor `.` is `file`. -/
theorem baseFilename_nodot (dir file : Str) (hs : '/' ∉ file) (hdot : '.' ∉ file) :
    baseFilename (dir ++ '/' :: file) = file := by
  simp [baseFilename, rfind_append_cons dir _ '/' hs, substrFrom, rfind_eq_none file '.' hdot]

/-- A name ending in `.png` is saved as PNG. -/
theorem saveFormat_png_suffix (pre : Str) : saveFormat (pre ++ ".png".toList) = FIF.png := by
  have h : rfind (pre ++ '.' :: "png".toList) '.' = some pre.length :=
    rfind_append_cons pre _ '.' (by decide)
  have e : pre ++ ".png".toList = pre ++ '.' :: "png".toList := rfl
  rw [e]
  simp only [saveFormat, h, substrFrom]
  simp

theorem findTestImage_first (canOpen : Str → Bool) (l : List Str) (i : Nat) (img : Str)
    (hi : l[i]? = some img) (hopen : canOpen img = true)
    (hbefore : ∀ j p, j < i → l[j]? = some p → canOpen p = false) :
    findTestImage canOpen l = some img := by
  induction l generalizing i with
  | nil => simp at hi
  | cons x xs ih =>
    cases i with
    | zero =>
      simp only [List.getElem?_cons_zero, Option.some.injEq] at hi
      simp [findTestImage, hi, hopen]
    | succ k =>
      have hx : canOpen x = false := hbefore 0 x (Nat.succ_pos k) (by simp)
      simp only [List.getElem?_cons_succ] at hi
      simp only [findTestImage, hx, Bool.false_eq_true, if_false]
      exact ih k hi (fun j p hj hp => hbefore (j + 1) p (Nat.succ_lt_succ hj) (by simpa using hp))

theorem findTestImage_none (canOpen : Str → Bool) (l : List Str)
    (h : ∀ p ∈ l, canOpen p = false) : findTestImage canOpen l = none := by
  induction l with
  | nil => rfl
  | cons x xs ih =>
    have hx : canOpen x = false := h x (by simp)
    simp only [findTestImage, hx, Bool.false_eq_true, if_false]
    exact ih (fun p hp => h p (by simp [hp]))

theorem findTestImage_mem (canOpen : Str → Bool) (l : List Str) (img : Str)
    (h : findTestImage canOpen l = some img) : img ∈ l := by
  induction l with
  | nil => simp [findTestImage] at h
  | cons x xs ih =>
    simp only [findTestImage] at h
    by_cases hx : canOpen x = true
    · simp only [hx, if_true, Option.some.injEq] at h
      simp [h]
    · simp only [hx, if_false] at h
      simp [ih h]

/-! ## Facts about the row copies -/

/-- An address outside every destination line keeps its byte. -/
theorem copyLines_outside (lines width : Nat) (src : Mem) (pSrcLine srcStep : Int) (dst : Mem)
    (pDstLine dstStep : Int) (a : Int)
    (h : ∀ j : Nat, j < lines →
      ¬ (pDstLine + j * dstStep ≤ a ∧ a < pDstLine + j * dstStep + width)) :
    copyLines lines width src pSrcLine srcStep dst pDstLine dstStep a = dst a := by
  induction lines generalizing dst pSrcLine pDstLine with
  | zero => rfl
  | succ n ih =>
    rw [copyLines, ih]
    · have h0 := h 0 (Nat.succ_pos n)
      simp only [Nat.cast_zero, zero_mul, add_zero] at h0
      simp only [memcpy, if_neg h0]
    · intro j hj
      have hj1 := h (j + 1) (Nat.succ_lt_succ hj)
      have e : pDstLine + dstStep + (j : Int) * dstStep = pDstLine + ((j + 1 : Nat) : Int) * dstStep := by
        push_cast; ring
      rw [e]; exact hj1

/-- Byte `x` of destination line `k` is byte `x` of source line `k`, when the
destination lines do not overlap. -/
theorem copyLines_line (lines width : Nat) (src : Mem) (pSrcLine srcStep : Int) (dst : Mem)
    (pDstLine dstStep : Int) (hstep : (width : Int) ≤ dstStep ∨ dstStep ≤ -(width : Int))
    (k x : Nat) (hk : k < lines) (hx : x < width) :
    copyLines lines width src pSrcLine srcStep dst pDstLine dstStep (pDstLine + k * dstStep + x)
      = src (pSrcLine + k * srcStep + x) := by
  induction lines generalizing dst pSrcLine pDstLine k with
  | zero => omega
  | succ n ih =>
    rw [copyLines]
    cases k with
    | zero =>
      rw [copyLines_outside]
      · have hin : pDstLine ≤ pDstLine + ((0 : Nat) : Int) * dstStep + x ∧
            pDstLine + ((0 : Nat) : Int) * dstStep + x < pDstLine + width := by
          constructor <;> push_cast <;> omega
        simp only [memcpy, if_pos hin]
        congr 1
        push_cast; ring
      · intro j _
        have hj0 : (0 : Int) ≤ j := Int.ofNat_nonneg j
        have hw0 : (0 : Int) ≤ width := Int.ofNat_nonneg width
        have hxw : (x : Int) < width := by exact_mod_cast hx
        have hx0 : (0 : Int) ≤ x := Int.ofNat_nonneg x
        rcases hstep with hs | hs
        · have : (0 : Int) ≤ j * dstStep := mul_nonneg hj0 (le_trans hw0 hs)
          push_cast
          intro hcon
          linarith [hcon.1]
        · have : (j : Int) * dstStep ≤ 0 :=
            mul_nonpos_of_nonneg_of_nonpos hj0 (by linarith)
          push_cast
          intro hcon
          linarith [hcon.2]
    | succ k' =>
      have := ih (pSrcLine + srcStep) (memcpy dst pDstLine src pSrcLine width)
        (pDstLine + dstStep) k' (Nat.lt_of_succ_lt_succ hk)
      have e1 : pDstLine + ((k' + 1 : Nat) : Int) * dstStep + x
          = pDstLine + dstStep + (k' : Int) * dstStep + x := by push_cast; ring
      have e2 : pSrcLine + ((k' + 1 : Nat) : Int) * srcStep + x
          = pSrcLine + srcStep + (k' : Int) * srcStep + x := by push_cast; ring
      rw [e1, e2]; exact this

/-- The copy depends on the source only through the bytes of its lines. -/
theorem copyLines_congr (lines width : Nat) (src src' : Mem) (pSrcLine srcStep : Int) (dst : Mem)
    (pDstLine dstStep : Int)
    (h : ∀ k x : Nat, k < lines → x < width →
      src (pSrcLine + k * srcStep + x) = src' (pSrcLine + k * srcStep + x)) :
    copyLines lines width src pSrcLine srcStep dst pDstLine dstStep
      = copyLines lines width src' pSrcLine srcStep dst pDstLine dstStep := by
  induction lines generalizing dst pSrcLine pDstLine with
  | zero => rfl
  | succ n ih =>
    rw [copyLines, copyLines]
    have hm : memcpy dst pDstLine src pSrcLine width = memcpy dst pDstLine src' pSrcLine width := by
      funext a
      simp only [memcpy]
      by_cases hin : pDstLine ≤ a ∧ a < pDstLine + width
      · rw [if_pos hin, if_pos hin]
        have hx := h 0 (a - pDstLine).toNat (Nat.succ_pos n) (by omega)
        have e : pSrcLine + ((0 : Nat) : Int) * srcStep + ((a - pDstLine).toNat : Int)
            = pSrcLine + (a - pDstLine) := by
          have : ((a - pDstLine).toNat : Int) = a - pDstLine := Int.toNat_of_nonneg (by omega)
          rw [this]; push_cast; ring
        rw [e] at hx; exact hx
      · rw [if_neg hin, if_neg hin]
    rw [hm]
    apply ih
    intro k x hk hx
    have := h (k + 1) x (Nat.succ_lt_succ hk) hx
    have e : pSrcLine + ((k + 1 : Nat) : Int) * srcStep + x
        = pSrcLine + srcStep + (k : Int) * srcStep + x := by push_cast; ring
    rw [e] at this; exact this

/-- The start offset is `p * (h - 1)` when that product is below `2 ^ 32`. -/
theorem start_offset (p h : Nat) (h1 : 1 ≤ h) (hb : p * (h - 1) < 2 ^ 32) :
    umul32 p (udec32 h) = p * (h - 1) := by
  have e : h + 2 ^ 32 - 1 = (h - 1) + 2 ^ 32 := by omega
  unfold umul32 udec32
  rw [e, Nat.add_mod_right, Nat.mul_mod, Nat.mod_mod, ← Nat.mul_mod, Nat.mod_eq_of_lt hb]

/-- The offset of byte `x` of scanline `h - 1 - y`, reached from the last
scanline by `y` steps back. -/
theorem flipped_offset (h p x y : Nat) (hy : y < h) (hb : p * (h - 1) < 2 ^ 32) :
    ((umul32 p (udec32 h) : Nat) : Int) + (y : Int) * (-(p : Int)) + x
      = (((h - 1 - y) * p + x : Nat) : Int) := by
  have e : ((h - 1 - y : Nat) : Int) = (h : Int) - 1 - y := by omega
  have e1 : ((h - 1 : Nat) : Int) = (h : Int) - 1 := by omega
  rw [start_offset p h (by omega) hb]
  push_cast
  rw [e, e1]; ring

/-- Pixel `(x, y)` of the image filled by the loader's row copy is byte `x` of
scanline `height - 1 - y` of the bitmap. -/
theorem copyBitmapToImage_pixel (pBitmap : FIBitmap) (oImage : ImageCPU)
    (hh : oImage.height = pBitmap.height) (hp : oImage.width ≤ oImage.pitch)
    (hb : pBitmap.pitch * (pBitmap.height - 1) < 2 ^ 32)
    (x y : Nat) (hx : x < oImage.width) (hy : y < oImage.height) :
    (copyBitmapToImage pBitmap oImage).pixel x y
      = pBitmap.bits (((pBitmap.height - 1 - y) * pBitmap.pitch + x : Nat) : Int) := by
  have hline := copyLines_line oImage.height oImage.width pBitmap.bits
    ((umul32 pBitmap.pitch (udec32 pBitmap.height) : Nat) : Int) (-(pBitmap.pitch : Int))
    oImage.data 0 oImage.pitch (Or.inl (by exact_mod_cast hp)) y x hy hx
  rw [flipped_offset pBitmap.height pBitmap.pitch x y (hh ▸ hy) hb] at hline
  simp only [ImageCPU.pixel, copyBitmapToImage]
  rw [← hline]
  congr 1
  ring

/-- Byte `x` of scanline `height - 1 - y` of the bitmap filled by the saver's
row copy is pixel `(x, y)` of the image. -/
theorem copyImageToBitmap_bits (rImage : ImageCPU) (pResultBitmap : FIBitmap)
    (hp : rImage.width ≤ pResultBitmap.pitch)
    (hb : pResultBitmap.pitch * (rImage.height - 1) < 2 ^ 32)
    (x y : Nat) (hx : x < rImage.width) (hy : y < rImage.height) :
    (copyImageToBitmap rImage pResultBitmap).bits
        (((rImage.height - 1 - y) * pResultBitmap.pitch + x : Nat) : Int)
      = rImage.pixel x y := by
  have hline := copyLines_line rImage.height rImage.width rImage.data 0 rImage.pitch
    pResultBitmap.bits ((umul32 pResultBitmap.pitch (udec32 rImage.height) : Nat) : Int)
    (-(pResultBitmap.pitch : Int)) (Or.inr (by exact_mod_cast (Int.neg_le_neg (Int.ofNat_le.mpr hp))))
    y x hy hx
  rw [flipped_offset rImage.height pResultBitmap.pitch x y hy hb] at hline
  simp only [ImageCPU.pixel, copyImageToBitmap]
  rw [hline]
  congr 1
  ring

/-! ## Facts about `saveImageGrayscale` and the loader -/

/-- With the result bitmap allocated, `saveImageGrayscale` passes the format of
the extension rule and the row-copied bitmap to `FreeImage_Save`, and raises
exactly when that call fails. -/
theorem saveImageGrayscale_eq (fi : FreeImage) (rFileName : Str) (rImage : ImageCPU)
    (pResultBitmap : FIBitmap)
    (ha : fi.allocate rImage.width rImage.height 8 = some pResultBitmap) :
    saveImageGrayscale fi rFileName rImage =
      if fi.save (saveFormat rFileName) (copyImageToBitmap rImage pResultBitmap) rFileName = true
      then .ok ⟨rFileName, saveFormat rFileName, copyImageToBitmap rImage pResultBitmap⟩
      else .error "Failed to save result image" := by
  simp only [saveImageGrayscale, ha]

/-- A file `saveImageGrayscale` wrote: its name, its format, the successful
`FreeImage_Save` call and its bitmap. -/
theorem saveImageGrayscale_ok (fi : FreeImage) (rFileName : Str) (rImage : ImageCPU)
    (file : SavedFile) (h : saveImageGrayscale fi rFileName rImage = .ok file) :
    file.name = rFileName ∧ file.format = saveFormat rFileName ∧
      fi.save (saveFormat rFileName) file.bitmap rFileName = true ∧
      ∃ pResultBitmap : FIBitmap,
        fi.allocate rImage.width rImage.height 8 = some pResultBitmap ∧
        file.bitmap = copyImageToBitmap rImage pResultBitmap := by
  cases ha : fi.allocate rImage.width rImage.height 8 with
  | none => simp [saveImageGrayscale, ha] at h
  | some bmp =>
    rw [saveImageGrayscale_eq fi rFileName rImage bmp ha] at h
    split at h
    · rename_i hs
      cases h
      exact ⟨rfl, rfl, hs, bmp, rfl, rfl⟩
    · cases h

/-! ## The claims -/

/-- C4: `saveImageGrayscale` passes to `FreeImage_Save` the encoding picked
from the text after the last `.` of the file name: PNG for `png`/`PNG`, BMP for `bmp`/`BMP`, JPEG for
`jpg`/`JPG`/`jpeg`/`JPEG`, and PGM for every other extension (among them
`pgm` and the mixed-case `Png`) and for a name without a `.`. -/
theorem saveFormat_by_extension (name : Str) :
    (∀ (fi : FreeImage) (rImage : ImageCPU) (pResultBitmap : FIBitmap),
      fi.allocate rImage.width rImage.height 8 = some pResultBitmap →
      saveImageGrayscale fi name rImage =
        if fi.save (saveFormat name) (copyImageToBitmap rImage pResultBitmap) name = true
        then .ok ⟨name, saveFormat name, copyImageToBitmap rImage pResultBitmap⟩
        else .error "Failed to save result image") ∧
    ('.' ∉ name → saveFormat name = FIF.pgm) ∧
    (∀ stem ext : Str, name = stem ++ '.' :: ext → '.' ∉ ext →
      ((ext = "png".toList ∨ ext = "PNG".toList) → saveFormat name = FIF.png) ∧
      ((ext = "bmp".toList ∨ ext = "BMP".toList) → saveFormat name = FIF.bmp) ∧
      ((ext = "jpg".toList ∨ ext = "JPG".toList ∨ ext = "jpeg".toList ∨ ext = "JPEG".toList) →
        saveFormat name = FIF.jpeg) ∧
      (ext = "pgm".toList → saveFormat name = FIF.pgm) ∧
      (ext = "Png".toList → saveFormat name = FIF.pgm) ∧
      ((ext ≠ "png".toList ∧ ext ≠ "PNG".toList ∧ ext ≠ "bmp".toList ∧ ext ≠ "BMP".toList ∧
          ext ≠ "jpg".toList ∧ ext ≠ "JPG".toList ∧ ext ≠ "jpeg".toList ∧ ext ≠ "JPEG".toList) →
        saveFormat name = FIF.pgm)) := by
  refine ⟨fun fi rImage bmp ha => saveImageGrayscale_eq fi name rImage bmp ha,
    fun h => by simp [saveFormat, rfind_eq_none name '.' h], ?_⟩
  intro stem ext hname hdot
  have hr : rfind name '.' = some stem.length := by
    rw [hname]; exact rfind_append_cons stem ext '.' hdot
  have hext : substrFrom name (stem.length + 1) = ext := by
    rw [hname]; simp [substrFrom]
  have hsf : saveFormat name =
      if ext = "png".toList ∨ ext = "PNG".toList then FIF.png
      else if ext = "bmp".toList ∨ ext = "BMP".toList then FIF.bmp
      else if ext = "jpg".toList ∨ ext = "JPG".toList ∨ ext = "jpeg".toList ∨
          ext = "JPEG".toList then FIF.jpeg
      else FIF.pgm := by
    simp only [saveFormat, hr, hext]
  refine ⟨?_, ?_, ?_, ?_, ?_, ?_⟩
  · intro h
    rw [hsf, if_pos h]
  · intro h
    rw [hsf]
    rcases h with h | h <;> subst h <;> decide
  · intro h
    rw [hsf]
    rcases h with h | h | h | h <;> subst h <;> decide
  · intro h
    rw [hsf]; subst h; decide
  · intro h
    rw [hsf]; subst h; decide
  · rintro ⟨h1, h2, h3, h4, h5, h6, h7, h8⟩
    rw [hsf, if_neg (not_or.mpr ⟨h1, h2⟩), if_neg (not_or.mpr ⟨h3, h4⟩),
      if_neg (not_or.mpr ⟨h5, not_or.mpr ⟨h6, not_or.mpr ⟨h7, h8⟩⟩⟩)]

/-- Witness for C4 at the names `photo.jpeg`, `scan.Png` and `raw`, and at
the sample image saved as `out.bmp`. -/
theorem saveFormat_by_extension_witness :
    saveFormat "photo.jpeg".toList = FIF.jpeg ∧ saveFormat "scan.Png".toList = FIF.pgm ∧
      saveFormat "raw".toList = FIF.pgm ∧
      saveImageGrayscale (sampleFreeImage true) "out.bmp".toList sampleImage =
        .ok ⟨"out.bmp".toList, FIF.bmp, copyImageToBitmap sampleImage sampleAllocated⟩ :=
  ⟨((saveFormat_by_extension "photo.jpeg".toList).2.2 "photo".toList "jpeg".toList rfl
      (by decide)).2.2.1 (by decide),
   ((saveFormat_by_extension "scan.Png".toList).2.2 "scan".toList "Png".toList rfl
      (by decide)).2.2.2.2.1 rfl,
   (saveFormat_by_extension "raw".toList).2.1 (by decide),
   ((saveFormat_by_extension "out.bmp".toList).1 (sampleFreeImage true) sampleImage
      sampleAllocated rfl).trans rfl⟩

/-- C8: for every input path, both output names that `main` builds select the
PNG encoding under the extension rule of `saveImageGrayscale`; every file
`saveImageGrayscale` writes under one of these names, and so every file a run
of `main` writes, is written by a `FreeImage_Save` call with the PNG format. -/
theorem result_names_select_png (sFilename : Str) :
    (saveFormat (resultFilenameH sFilename) = FIF.png ∧
      saveFormat (resultFilenameV sFilename) = FIF.png) ∧
    (∀ (fi : FreeImage) (rImage : ImageCPU) (file : SavedFile),
      (saveImageGrayscale fi (resultFilenameH sFilename) rImage = .ok file →
        file.format = FIF.png ∧
          fi.save FIF.png file.bitmap (resultFilenameH sFilename) = true) ∧
      (saveImageGrayscale fi (resultFilenameV sFilename) rImage = .ok file →
        file.format = FIF.png ∧
          fi.save FIF.png file.bitmap (resultFilenameV sFilename) = true)) ∧
    (∀ (w : World) (file : SavedFile), file ∈ (main w).written →
      file.format = FIF.png ∧ w.fi.save FIF.png file.bitmap file.name = true) := by
  have hpng : ∀ s : Str, saveFormat (resultFilenameH s) = FIF.png ∧
      saveFormat (resultFilenameV s) = FIF.png := by
    intro s
    constructor
    · have e : resultFilenameH s =
          ("output/".toList ++ baseFilename s ++ "_edges_horizontal".toList)
            ++ ".png".toList := by
        simp [resultFilenameH]
      rw [e]; exact saveFormat_png_suffix _
    · have e : resultFilenameV s =
          ("output/".toList ++ baseFilename s ++ "_edges_vertical".toList)
            ++ ".png".toList := by
        simp [resultFilenameV]
      rw [e]; exact saveFormat_png_suffix _
  have hH : ∀ (s : Str) (fi : FreeImage) (rImage : ImageCPU) (file : SavedFile),
      saveImageGrayscale fi (resultFilenameH s) rImage = .ok file →
      file.format = FIF.png ∧ fi.save FIF.png file.bitmap file.name = true := by
    intro s fi rImage file h
    obtain ⟨hn, hf, hs, _⟩ := saveImageGrayscale_ok fi _ rImage file h
    rw [(hpng s).1] at hf hs
    exact ⟨hf, by rw [hn]; exact hs⟩
  have hV : ∀ (s : Str) (fi : FreeImage) (rImage : ImageCPU) (file : SavedFile),
      saveImageGrayscale fi (resultFilenameV s) rImage = .ok file →
      file.format = FIF.png ∧ fi.save FIF.png file.bitmap file.name = true := by
    intro s fi rImage file h
    obtain ⟨hn, hf, hs, _⟩ := saveImageGrayscale_ok fi _ rImage file h
    rw [(hpng s).2] at hf hs
    exact ⟨hf, by rw [hn]; exact hs⟩
  refine ⟨hpng sFilename, ?_, ?_⟩
  · intro fi rImage file
    constructor
    · intro h
      have := hH sFilename fi rImage file h
      rw [(saveImageGrayscale_ok fi _ rImage file h).1] at this
      exact this
    · intro h
      have := hV sFilename fi rImage file h
      rw [(saveImageGrayscale_ok fi _ rImage file h).1] at this
      exact this
  · intro w file hmem
    unfold main at hmem
    split at hmem
    · simp at hmem
    · dsimp only at hmem
      split at hmem
      · simp at hmem
      · split at hmem
        · simp at hmem
        · split at hmem
          · simp at hmem
          · split at hmem
            · simp at hmem
            · rename_i fileH hfH
              split at hmem
              · simp only [List.mem_singleton] at hmem
                subst hmem
                exact hH _ _ _ _ hfH
              · rename_i fileV hfV
                simp only [List.mem_cons, List.mem_singleton, List.not_mem_nil, or_false] at hmem
                rcases hmem with h | h
                · subst h; exact hH _ _ _ _ hfH
                · subst h; exact hV _ _ _ _ hfV

/-- Witness for C8: the output names for `input/my.photo.jpg`, and the files
written by a run in which every stage succeeds. -/
theorem result_names_select_png_witness :
    saveFormat (resultFilenameH "input/my.photo.jpg".toList) = FIF.png ∧
      (main (sampleWorld true true true)).written.length = 2 ∧
      (main (sampleWorld true true true)).written.all
        (fun file => decide (file.format = FIF.png)) = true :=
  ⟨(result_names_select_png "input/my.photo.jpg".toList).1.1, by decide,
   List.all_eq_true.mpr (fun file hmem => decide_eq_true
     ((result_names_select_png []).2.2 (sampleWorld true true true) file hmem).1)⟩

/-- C3, as stated, fails: for the input `input/Lena.pgm` (the path `main`
selects when no flag is given and no sample can be opened) the naming rule
of the specification gives `output/Lena_edges_horizontal.pgm`, and `main`
builds `output/Lena_edges_horizontal.png`. -/
theorem result_names_ext_counterexample :
    selectInput false [] (fun _ => false) = "input/Lena.pgm".toList ∧
      specResultFilename "horizontal".toList "input/Lena.pgm".toList =
        "output/Lena_edges_horizontal.pgm".toList ∧
      resultFilenameH "input/Lena.pgm".toList = "output/Lena_edges_horizontal.png".toList ∧
      resultFilenameH "input/Lena.pgm".toList ≠
        specResultFilename "horizontal".toList "input/Lena.pgm".toList := by
  decide

/-- C3, amended: for an input path `dir/file` the two output paths are
`output/<basename>_edges_horizontal.png` and `output/<basename>_edges_vertical.png`,
where `<basename>` is `file` with its last extension removed (`file` itself
when it has no `.`); the extension is `png` whatever the input's is. -/
theorem result_names_png (dir file : Str) (hfile : '/' ∉ file) :
    (∀ stem ext : Str, file = stem ++ '.' :: ext → '.' ∉ ext →
      resultFilenameH (dir ++ '/' :: file) =
          "output/".toList ++ stem ++ "_edges_horizontal.png".toList ∧
        resultFilenameV (dir ++ '/' :: file) =
          "output/".toList ++ stem ++ "_edges_vertical.png".toList) ∧
    ('.' ∉ file →
      resultFilenameH (dir ++ '/' :: file) =
          "output/".toList ++ file ++ "_edges_horizontal.png".toList ∧
        resultFilenameV (dir ++ '/' :: file) =
          "output/".toList ++ file ++ "_edges_vertical.png".toList) := by
  constructor
  · intro stem ext hsplit hdot
    subst hsplit
    have hs : '/' ∉ stem := fun h => hfile (by simp [h])
    have he : '/' ∉ ext := fun h => hfile (by simp [h])
    rw [resultFilenameH, resultFilenameV, baseFilename_stem dir stem ext hs he hdot]
    exact ⟨rfl, rfl⟩
  · intro hdot
    rw [resultFilenameH, resultFilenameV, baseFilename_nodot dir file hfile hdot]
    exact ⟨rfl, rfl⟩

/-- Witness for C3 (amended) at the inputs `input/my.photo.jpg` and
`input/scan`. -/
theorem result_names_png_witness :
    (resultFilenameH "input/my.photo.jpg".toList = "output/my.photo_edges_horizontal.png".toList ∧
      resultFilenameV "input/my.photo.jpg".toList = "output/my.photo_edges_vertical.png".toList) ∧
    (resultFilenameH "input/scan".toList = "output/scan_edges_horizontal.png".toList ∧
      resultFilenameV "input/scan".toList = "output/scan_edges_vertical.png".toList) :=
  ⟨(result_names_png "input".toList "my.photo.jpg".toList (by decide)).1
      "my.photo".toList "jpg".toList rfl (by decide),
   (result_names_png "input".toList "scan".toList (by decide)).2 (by decide)⟩

/-- C5: the input path `main` selects is `input/` followed by the value of
the flag when the flag is present; otherwise the first entry of the list
`input/Lena.pgm`, `input/sloth.png`, `input/grey-sloth.png`, `input/th.jpeg`
that can be opened, and `input/Lena.pgm` when none can; in every case it
starts with `input/`. -/
theorem selectInput_spec (hasInputFlag : Bool) (filePath : Str) (canOpen : Str → Bool) :
    testImages = ["input/Lena.pgm".toList, "input/sloth.png".toList,
      "input/grey-sloth.png".toList, "input/th.jpeg".toList] ∧
    (hasInputFlag = true →
      selectInput hasInputFlag filePath canOpen = "input/".toList ++ filePath) ∧
    (hasInputFlag = false → ∀ (i : Nat) (img : Str), testImages[i]? = some img →
      canOpen img = true → (∀ j p, j < i → testImages[j]? = some p → canOpen p = false) →
      selectInput hasInputFlag filePath canOpen = img) ∧
    (hasInputFlag = false → (∀ p ∈ testImages, canOpen p = false) →
      selectInput hasInputFlag filePath canOpen = "input/Lena.pgm".toList) ∧
    (∃ rest : Str, selectInput hasInputFlag filePath canOpen = "input/".toList ++ rest) := by
  refine ⟨rfl, ?_, ?_, ?_, ?_⟩
  · intro h
    simp [selectInput, h]
  · intro h i img hi hopen hbefore
    simp [selectInput, h, findTestImage_first canOpen testImages i img hi hopen hbefore]
  · intro h hnone
    simp [selectInput, h, findTestImage_none canOpen testImages hnone]
  · cases hasInputFlag with
    | true => exact ⟨filePath, by simp [selectInput]⟩
    | false =>
      cases hf : findTestImage canOpen testImages with
      | none => exact ⟨"Lena.pgm".toList, by simp [selectInput, hf]⟩
      | some img =>
        have hmem := findTestImage_mem canOpen testImages img hf
        have hsel : selectInput false filePath canOpen = img := by simp [selectInput, hf]
        rw [hsel]
        simp only [testImages, List.mem_cons, List.mem_singleton, List.not_mem_nil,
          or_false] at hmem
        rcases hmem with h | h | h | h
        · exact ⟨"Lena.pgm".toList, by rw [h]; rfl⟩
        · exact ⟨"sloth.png".toList, by rw [h]; rfl⟩
        · exact ⟨"grey-sloth.png".toList, by rw [h]; rfl⟩
        · exact ⟨"th.jpeg".toList, by rw [h]; rfl⟩

/-- Witness for C5: with the flag value `photo.jpg`; without the flag when only
the second and fourth samples can be opened; without the flag when none can. -/
theorem selectInput_spec_witness :
    selectInput true "photo.jpg".toList (fun _ => false) = "input/photo.jpg".toList ∧
    selectInput false []
        (fun p => p = "input/sloth.png".toList || p = "input/th.jpeg".toList) =
      "input/sloth.png".toList ∧
    selectInput false [] (fun _ => false) = "input/Lena.pgm".toList :=
  ⟨by simpa using (selectInput_spec true "photo.jpg".toList (fun _ => false)).2.1 rfl,
   (selectInput_spec false []
      (fun p => p = "input/sloth.png".toList || p = "input/th.jpeg".toList)).2.2.1 rfl
      1 "input/sloth.png".toList (by decide) (by decide)
      (fun j p hj hp => by
        have hj0 : j = 0 := by omega
        subst hj0
        have hp0 : p = "input/Lena.pgm".toList := by
          simpa [testImages] using hp.symm
        subst hp0
        decide),
   (selectInput_spec false [] (fun _ => false)).2.2.2.1 rfl (fun _ _ => rfl)⟩

/-- C10, as stated, fails: the 1 x 3 bitmap of pitch `2 ^ 31` meets the
claim's conditions (`w >= 1`, `h >= 1`, `p >= w`), its byte at offset
`(h - 1 - 0) * p + 0 = 2 ^ 32` is 7, and pixel `(0, 0)` of the image
`loadImageAutoGrayscale` returns is 9, the byte at offset 0: the
`unsigned int` product `p * (h - 1)` is 0. -/
theorem load_rows_flipped_counterexample :
    decodeBitmap wideFreeImage "input/Lena.pgm".toList = .ok wideBitmap ∧
      1 ≤ wideBitmap.width ∧ 1 ≤ wideBitmap.height ∧ wideBitmap.width ≤ wideBitmap.pitch ∧
      wideBitmap.bits
        (((wideBitmap.height - 1 - 0) * wideBitmap.pitch + 0 : Nat) : Int) = 7 ∧
      ∃ img : ImageCPU,
        loadImageAutoGrayscale wideFreeImage (fun w _ => some w) (fun _ => 0)
          "input/Lena.pgm".toList = .ok img ∧
        img.pixel 0 0 = 9 := by
  refine ⟨rfl, by decide, by decide, by decide, by decide, _, rfl, ?_⟩
  decide

/-- C10, amended: when the file decodes to the 8-bit grayscale bitmap `pBitmap`
of width `w`, height `h` and pitch `p` with `p * (h - 1) < 2 ^ 32`,
`loadImageAutoGrayscale` returns an image of width `w` and height `h` whose
pixel `(x, y)` is the bitmap byte at offset `(h - 1 - y) * p + x`; outside the
`w` bytes of its `h` rows the image keeps its initial bytes, and the image is
the same for every bitmap with the same pixel bytes, whatever its padding
bytes are. -/
theorem load_rows_flipped (fi : FreeImage) (hostAlloc : Allocator) (fresh : Mem)
    (rFileName : Str) (pBitmap : FIBitmap) (pitch : Nat)
    (hdec : decodeBitmap fi rFileName = .ok pBitmap)
    (halloc : hostAlloc pBitmap.width pBitmap.height = some pitch)
    (hpitch : pBitmap.width ≤ pitch)
    (hbound : pBitmap.pitch * (pBitmap.height - 1) < 2 ^ 32) :
    ∃ img : ImageCPU, loadImageAutoGrayscale fi hostAlloc fresh rFileName = .ok img ∧
      img.width = pBitmap.width ∧ img.height = pBitmap.height ∧
      (∀ x y : Nat, x < pBitmap.width → y < pBitmap.height →
        img.pixel x y
          = pBitmap.bits (((pBitmap.height - 1 - y) * pBitmap.pitch + x : Nat) : Int)) ∧
      (∀ a : Int,
        (∀ y : Nat, y < pBitmap.height →
          ¬ ((y : Int) * img.pitch ≤ a ∧ a < (y : Int) * img.pitch + pBitmap.width)) →
        img.data a = fresh a) ∧
      (∀ other : FIBitmap, other.width = pBitmap.width → other.height = pBitmap.height →
        other.pitch = pBitmap.pitch →
        (∀ x y : Nat, x < pBitmap.width → y < pBitmap.height →
          other.bits (((pBitmap.height - 1 - y) * pBitmap.pitch + x : Nat) : Int)
            = pBitmap.bits (((pBitmap.height - 1 - y) * pBitmap.pitch + x : Nat) : Int)) →
        loadImageAutoGrayscale fi hostAlloc fresh rFileName
          = .ok (copyBitmapToImage other ⟨other.width, other.height, pitch, fresh⟩)) := by
  refine ⟨copyBitmapToImage pBitmap ⟨pBitmap.width, pBitmap.height, pitch, fresh⟩, ?_, rfl, rfl,
    ?_, ?_, ?_⟩
  · simp only [loadImageAutoGrayscale, hdec, halloc]
  · intro x y hx hy
    exact copyBitmapToImage_pixel pBitmap ⟨pBitmap.width, pBitmap.height, pitch, fresh⟩ rfl
      hpitch hbound x y hx hy
  · intro a ha
    simp only [copyBitmapToImage]
    apply copyLines_outside
    intro j hj
    have := ha j hj
    simpa [copyBitmapToImage] using this
  · intro other hw hh hp hbits
    simp only [loadImageAutoGrayscale, hdec, halloc]
    congr 1
    simp only [copyBitmapToImage, hw, hh, hp]
    congr 1
    apply copyLines_congr
    intro k x hk hx
    rw [flipped_offset pBitmap.height pBitmap.pitch x k hk hbound]
    exact (hbits x k hx hk).symm

/-- Witness for C10 (amended): the sample bitmap (3 x 2, pitch 4) loaded into
an image of pitch 3. -/
theorem load_rows_flipped_witness :
    ∃ img : ImageCPU,
      loadImageAutoGrayscale (sampleFreeImage true) (fun w _ => some w) (fun _ => 0)
          "input/Lena.pgm".toList = .ok img ∧
        img.width = 3 ∧ img.height = 2 ∧
        img.pixel 1 0 = sampleBitmap.bits 5 ∧ img.pixel 2 1 = sampleBitmap.bits 2 := by
  obtain ⟨img, hload, hw, hh, hpix, _, _⟩ :=
    load_rows_flipped (sampleFreeImage true) (fun w _ => some w) (fun _ => 0)
      "input/Lena.pgm".toList sampleBitmap 3 rfl rfl (by decide) (by decide)
  exact ⟨img, hload, hw, hh, hpix 1 0 (by decide) (by decide), hpix 2 1 (by decide) (by decide)⟩

/-- C7, as stated, fails: the 1 x 3 image with the pixels 1, 2, 3 is saved
into a bitmap of pitch `2 ^ 31`, the codec returns the bytes of the bitmap's
buffer unchanged (so it is the identity on the bitmap's pixels), all pitches
are at least the width, and pixel `(0, 1)` of the image loaded back is 0, not
2: both row copies start at the `unsigned int` product `p * (h - 1) = 0` and
walk below the buffer. -/
theorem save_load_roundtrip_counterexample :
    (∃ file : SavedFile,
        saveImageGrayscale wideSaver "output/a_edges_horizontal.png".toList tallImage
          = .ok file ∧
        decodeBitmap wideLoader "input/a.png".toList = .ok (bufferOf file.bitmap) ∧
        tallImage.width ≤ file.bitmap.pitch ∧
        (bufferOf file.bitmap).width = tallImage.width ∧
        (bufferOf file.bitmap).height = tallImage.height ∧
        (bufferOf file.bitmap).bits ((0 * file.bitmap.pitch + 0 : Nat) : Int)
          = file.bitmap.bits ((0 * file.bitmap.pitch + 0 : Nat) : Int) ∧
        (bufferOf file.bitmap).bits ((1 * file.bitmap.pitch + 0 : Nat) : Int)
          = file.bitmap.bits ((1 * file.bitmap.pitch + 0 : Nat) : Int) ∧
        (bufferOf file.bitmap).bits ((2 * file.bitmap.pitch + 0 : Nat) : Int)
          = file.bitmap.bits ((2 * file.bitmap.pitch + 0 : Nat) : Int)) ∧
      1 ≤ tallImage.width ∧ 1 ≤ tallImage.height ∧ tallImage.width ≤ tallImage.pitch ∧
      tallImage.pixel 0 1 = 2 ∧
      ∃ img : ImageCPU,
        loadImageAutoGrayscale wideLoader (fun w _ => some w) (fun _ => 0)
          "input/a.png".toList = .ok img ∧
        img.width = 1 ∧ img.height = 3 ∧ img.pitch = 1 ∧ img.pixel 0 1 = 0 := by
  refine ⟨⟨_, rfl, rfl, by decide, rfl, rfl, by decide, by decide, by decide⟩,
    by decide, by decide, by decide, by decide, _, rfl, rfl, rfl, rfl, ?_⟩
  decide

/-- C7, amended: when `saveImageGrayscale` writes `file` for the image `rImage`
into a bitmap of pitch `p` at least the width with `p * (h - 1) < 2 ^ 32`, and
a file decodes to a bitmap of the same size with the same pixel bytes (any
pitch `q` with `q * (h - 1) < 2 ^ 32`, any padding), `loadImageAutoGrayscale`
returns, for a host pitch at least the width, an image of that size whose
every pixel `(x, y)` is pixel `(x, y)` of `rImage`. -/
theorem save_load_roundtrip (fiSave fiLoad : FreeImage) (hostAlloc : Allocator) (fresh : Mem)
    (outName inName : Str) (rImage : ImageCPU) (file : SavedFile) (decoded : FIBitmap)
    (pitch : Nat)
    (hsave : saveImageGrayscale fiSave outName rImage = .ok file)
    (hbp : rImage.width ≤ file.bitmap.pitch)
    (hsb : file.bitmap.pitch * (rImage.height - 1) < 2 ^ 32)
    (hdec : decodeBitmap fiLoad inName = .ok decoded)
    (hdw : decoded.width = rImage.width) (hdh : decoded.height = rImage.height)
    (hcodec : ∀ x r : Nat, x < rImage.width → r < rImage.height →
      decoded.bits ((r * decoded.pitch + x : Nat) : Int)
        = file.bitmap.bits ((r * file.bitmap.pitch + x : Nat) : Int))
    (hlb : decoded.pitch * (rImage.height - 1) < 2 ^ 32)
    (halloc : hostAlloc decoded.width decoded.height = some pitch)
    (hpitch : rImage.width ≤ pitch) :
    ∃ img : ImageCPU, loadImageAutoGrayscale fiLoad hostAlloc fresh inName = .ok img ∧
      img.width = rImage.width ∧ img.height = rImage.height ∧
      ∀ x y : Nat, x < rImage.width → y < rImage.height →
        img.pixel x y = rImage.pixel x y := by
  obtain ⟨_, _, _, bmp, _, hbmp⟩ := saveImageGrayscale_ok fiSave outName rImage file hsave
  have hpb : file.bitmap.pitch = bmp.pitch := by rw [hbmp]; rfl
  refine ⟨copyBitmapToImage decoded ⟨decoded.width, decoded.height, pitch, fresh⟩, ?_, hdw, hdh,
    ?_⟩
  · simp only [loadImageAutoGrayscale, hdec, halloc]
  · intro x y hx hy
    rw [copyBitmapToImage_pixel decoded ⟨decoded.width, decoded.height, pitch, fresh⟩ rfl
      (by simpa [hdw] using hpitch) (by simpa [hdh] using hlb) x y (by simpa [hdw] using hx)
      (by simpa [hdh] using hy)]
    rw [hdh, hcodec x (rImage.height - 1 - y) hx (by omega), hbmp]
    exact copyImageToBitmap_bits rImage bmp (hpb ▸ hbp) (hpb ▸ hsb) x y hx hy

/-- Witness for C7 (amended): the sample image (3 x 2, pitch 4) saved into a
bitmap of pitch 4, read back unchanged and loaded into an image of pitch 3. -/
theorem save_load_roundtrip_witness :
    ∃ img : ImageCPU,
      loadImageAutoGrayscale
          { sampleFreeImage true with
            load := fun _ _ => some (copyImageToBitmap sampleImage sampleAllocated) }
          (fun w _ => some w) (fun _ => 0) "input/out.png".toList = .ok img ∧
        img.pixel 2 1 = sampleImage.pixel 2 1 ∧ img.pixel 0 0 = sampleImage.pixel 0 0 ∧
        sampleImage.pixel 2 1 = 43 ∧ sampleImage.pixel 0 0 = 1 := by
  obtain ⟨img, hload, _, _, hpix⟩ :=
    save_load_roundtrip (sampleFreeImage true)
      { sampleFreeImage true with
        load := fun _ _ => some (copyImageToBitmap sampleImage sampleAllocated) }
      (fun w _ => some w) (fun _ => 0) "output/out.png".toList "input/out.png".toList
      sampleImage ⟨"output/out.png".toList, FIF.png, copyImageToBitmap sampleImage sampleAllocated⟩
      (copyImageToBitmap sampleImage sampleAllocated) 3
      rfl (by decide) (by decide) rfl rfl rfl (fun _ _ _ _ => rfl) (by decide) rfl (by decide)
  exact ⟨img, hload, hpix 2 1 (by decide) (by decide), hpix 0 0 (by decide) (by decide),
    by decide, by decide⟩

theorem castInt_of_lt (n : Nat) (h : n < 2 ^ 31) : castInt n = n := by
  have h' : n < 2147483648 := by simpa using h
  have e : n % 2 ^ 32 = n := Nat.mod_eq_of_lt (by norm_num; omega)
  unfold castInt
  rw [e, if_pos h]

theorem castUInt_castInt (n : Nat) (h : n < 2 ^ 32) : castUInt (castInt n) = n := by
  have h' : n < 4294967296 := by simpa using h
  have e : n % 2 ^ 32 = n := Nat.mod_eq_of_lt h
  unfold castUInt castInt
  rw [e]
  split <;> norm_num <;> omega

theorem ImageNPP.ofHost_dims (deviceAlloc : Allocator) (fresh : Mem) (img : ImageCPU)
    (dev : ImageNPP) (h : ImageNPP.ofHost deviceAlloc fresh img = some dev) :
    dev.width = img.width ∧ dev.height = img.height := by
  unfold ImageNPP.ofHost at h
  split at h
  · cases h
  · cases h; exact ⟨rfl, rfl⟩

theorem ImageNPP.create_dims (deviceAlloc : Allocator) (fresh : Mem) (nWidth nHeight : Nat)
    (dev : ImageNPP) (h : ImageNPP.create deviceAlloc fresh nWidth nHeight = some dev) :
    dev.width = nWidth ∧ dev.height = nHeight := by
  unfold ImageNPP.create at h
  split at h
  · cases h
  · cases h; exact ⟨rfl, rfl⟩

theorem ImageNPP.toHost_dims (hostAlloc : Allocator) (fresh : Mem) (dev : ImageNPP)
    (img : ImageCPU) (h : ImageNPP.toHost hostAlloc fresh dev = some img) :
    img.width = dev.width ∧ img.height = dev.height := by
  unfold ImageNPP.toHost at h
  split at h
  · cases h
  · cases h; exact ⟨rfl, rfl⟩

/-- C2, as stated, fails: for an image of width `2 ^ 31 + 1` and height 1 the
filter stage completes, and both filter calls take `(-2147483647, 1)` as
region of interest, not the full image `(2147483649, 1)`. -/
theorem sobelStage_dims_counterexample :
    hugeImage.width = 2147483649 ∧ hugeImage.height = 1 ∧
      ∃ stage : SobelStage, sobelStage (sampleWorld true true true) hugeImage = .ok stage ∧
        stage.callH.oSizeROI = (-2147483647, 1) ∧ stage.callV.oSizeROI = (-2147483647, 1) ∧
        stage.callH.oSizeROI ≠ ((hugeImage.width : Int), (hugeImage.height : Int)) := by
  refine ⟨rfl, rfl, _, rfl, by decide, by decide, by decide⟩

/-- C2, amended: when the filter stage of `main` completes for a loaded image
of width `w` and height `h` (values of `unsigned int`), both device results
and both host results have width `w` and height `h`, and both filter calls
take the size of the image converted to `int` as source size and as region
of interest, with source offset `(0, 0)` and the replicate border; that
region of interest is the full image `(w, h)` when `w` and `h` are below
`2 ^ 31`. -/
theorem sobelStage_dims (w : World) (oHostSrc : ImageCPU) (stage : SobelStage)
    (hw : oHostSrc.width < 2 ^ 32) (hh : oHostSrc.height < 2 ^ 32)
    (hst : sobelStage w oHostSrc = .ok stage) :
    (stage.oDeviceDstH.width = oHostSrc.width ∧ stage.oDeviceDstH.height = oHostSrc.height) ∧
    (stage.oDeviceDstV.width = oHostSrc.width ∧ stage.oDeviceDstV.height = oHostSrc.height) ∧
    (stage.oHostDstH.width = oHostSrc.width ∧ stage.oHostDstH.height = oHostSrc.height) ∧
    (stage.oHostDstV.width = oHostSrc.width ∧ stage.oHostDstV.height = oHostSrc.height) ∧
    (stage.callH.oSrcSize = (castInt oHostSrc.width, castInt oHostSrc.height) ∧
      stage.callH.oSizeROI = stage.callH.oSrcSize ∧
      stage.callH.oSrcOffset = (0, 0) ∧ stage.callH.eBorderType = BorderType.replicate) ∧
    (stage.callV.oSrcSize = (castInt oHostSrc.width, castInt oHostSrc.height) ∧
      stage.callV.oSizeROI = stage.callV.oSrcSize ∧
      stage.callV.oSrcOffset = (0, 0) ∧ stage.callV.eBorderType = BorderType.replicate) ∧
    (oHostSrc.width < 2 ^ 31 → oHostSrc.height < 2 ^ 31 →
      stage.callH.oSizeROI = ((oHostSrc.width : Int), (oHostSrc.height : Int)) ∧
      stage.callV.oSizeROI = ((oHostSrc.width : Int), (oHostSrc.height : Int))) := by
  unfold sobelStage at hst
  split at hst
  · cases hst
  · rename_i oDeviceSrc hsrc
    obtain ⟨sw, sh⟩ := ImageNPP.ofHost_dims _ _ _ _ hsrc
    have uw : castUInt (castInt oDeviceSrc.width) = oHostSrc.width := by
      rw [sw]; exact castUInt_castInt _ hw
    have uh : castUInt (castInt oDeviceSrc.height) = oHostSrc.height := by
      rw [sh]; exact castUInt_castInt _ hh
    dsimp only at hst
    split at hst
    · cases hst
    · rename_i dstH hdH
      obtain ⟨hw1, hh1⟩ := ImageNPP.create_dims _ _ _ _ _ hdH
      rw [uw] at hw1
      rw [uh] at hh1
      split at hst
      · cases hst
      · rename_i dstV hdV
        obtain ⟨hw2, hh2⟩ := ImageNPP.create_dims _ _ _ _ _ hdV
        rw [uw] at hw2
        rw [uh] at hh2
        split at hst
        · cases hst
        · split at hst
          · cases hst
          · split at hst
            · cases hst
            · rename_i hostH hhH
              obtain ⟨hw3, hh3⟩ := ImageNPP.toHost_dims _ _ _ _ hhH
              split at hst
              · cases hst
              · rename_i hostV hhV
                obtain ⟨hw4, hh4⟩ := ImageNPP.toHost_dims _ _ _ _ hhV
                cases hst
                simp only at hw3 hh3 hw4 hh4
                refine ⟨⟨hw1, hh1⟩, ⟨hw2, hh2⟩, ⟨hw3.trans hw1, hh3.trans hh1⟩,
                  ⟨hw4.trans hw2, hh4.trans hh2⟩, ⟨?_, rfl, rfl, rfl⟩, ⟨?_, rfl, rfl, rfl⟩, ?_⟩
                · simp only [sw, sh]
                · simp only [sw, sh]
                · intro hw31 hh31
                  simp only [sw, sh, castInt_of_lt _ hw31, castInt_of_lt _ hh31, and_self]

/-- Witness for C2 (amended): the filter stage on the sample image in a world where
every stage succeeds. -/
theorem sobelStage_dims_witness :
    ∃ stage : SobelStage, sobelStage (sampleWorld true true true) sampleImage = .ok stage ∧
      stage.oHostDstH.width = 3 ∧ stage.oHostDstH.height = 2 ∧
      stage.oHostDstV.width = 3 ∧ stage.oHostDstV.height = 2 ∧
      stage.callH.oSizeROI = (3, 2) ∧ stage.callV.oSizeROI = (3, 2) := by
  cases hst : sobelStage (sampleWorld true true true) sampleImage with
  | error e =>
    exact absurd hst (by simp [sobelStage, ImageNPP.ofHost, ImageNPP.create, ImageNPP.toHost,
      sampleWorld])
  | ok stage =>
    have h := sobelStage_dims (sampleWorld true true true) sampleImage stage
      (by decide) (by decide) hst
    have hroi := h.2.2.2.2.2.2 (by decide) (by decide)
    exact ⟨stage, rfl, h.2.2.1.1, h.2.2.1.2, h.2.2.2.1.1, h.2.2.2.1.2, hroi.1, hroi.2⟩

/-- C9: when `printfNPPinfo` returns false, `main` exits with status 0
(`EXIT_SUCCESS`) without having selected an input, called the loader or a
filter, or written a file. -/
theorem no_capable_device_exit (w : World) (h : printfNPPinfo w = false) :
    (main w).exitCode = 0 ∧ (main w).selected = none ∧ (main w).loadCalls = [] ∧
      (main w).filterCalls = [] ∧ (main w).written = [] := by
  simp [main, h, EXIT_SUCCESS]

/-- Witness for C9: a world without a capable device in which every later
stage would succeed. -/
theorem no_capable_device_exit_witness :
    printfNPPinfo (sampleWorld false true true) = false ∧
      (main (sampleWorld false true true)).exitCode = 0 ∧
      (main (sampleWorld false true true)).written = [] :=
  ⟨rfl, (no_capable_device_exit (sampleWorld false true true) rfl).1,
    (no_capable_device_exit (sampleWorld false true true) rfl).2.2.2.2⟩

/-- The exceptions of the loader: an unknown format, a format that cannot be
read or a failed load, and a failed conversion to grayscale.  The format is
the one `FreeImage_GetFileType` gives, or the one of the file name when that
is unknown. -/
theorem decodeBitmap_raises (fi : FreeImage) (rFileName : Str) :
    (fi.getFileType rFileName = FIF.unknown → fi.getFIFFromFilename rFileName = FIF.unknown →
      decodeBitmap fi rFileName = .error "Unknown image format") ∧
    (∀ eFormat : FIF, eFormat ≠ FIF.unknown →
      (fi.getFileType rFileName = eFormat ∨
        (fi.getFileType rFileName = FIF.unknown ∧ fi.getFIFFromFilename rFileName = eFormat)) →
      (fi.fifSupportsReading eFormat = false ∨ fi.load eFormat rFileName = none) →
      decodeBitmap fi rFileName = .error "Failed to load image") ∧
    (∀ (eFormat : FIF) (bitmap : FIBitmap), eFormat ≠ FIF.unknown →
      (fi.getFileType rFileName = eFormat ∨
        (fi.getFileType rFileName = FIF.unknown ∧ fi.getFIFFromFilename rFileName = eFormat)) →
      fi.fifSupportsReading eFormat = true →
      fi.load eFormat rFileName = some bitmap →
      (bitmap.colorType ≠ ColorType.minisblack ∨ bitmap.bpp ≠ 8) →
      fi.convertToGreyscale bitmap = none →
      decodeBitmap fi rFileName = .error "Failed to convert to grayscale") := by
  have hdet : ∀ eFormat : FIF, eFormat ≠ FIF.unknown →
      (fi.getFileType rFileName = eFormat ∨
        (fi.getFileType rFileName = FIF.unknown ∧ fi.getFIFFromFilename rFileName = eFormat)) →
      (if fi.getFileType rFileName = FIF.unknown then fi.getFIFFromFilename rFileName
        else fi.getFileType rFileName) = eFormat := by
    intro eFormat hne hd
    rcases hd with h | ⟨h1, h2⟩
    · rw [if_neg (by rw [h]; exact hne), h]
    · rw [if_pos h1, h2]
  refine ⟨?_, ?_, ?_⟩
  · intro h1 h2
    simp [decodeBitmap, h1, h2]
  · intro eFormat hne hd hload
    have hdet' := hdet eFormat hne hd
    simp only [decodeBitmap, hdet', if_neg hne]
    rcases hload with h | h
    · simp [h]
    · by_cases hs : fi.fifSupportsReading eFormat = true
      · simp [hs, h]
      · simp [hs]
  · intro eFormat bitmap hne hd hs hload hgray hconv
    have hdet' := hdet eFormat hne hd
    simp only [decodeBitmap, hdet', if_neg hne, hs, if_true, hload, if_pos hgray, hconv]

theorem loadImageAutoGrayscale_raises (fi : FreeImage) (hostAlloc : Allocator) (fresh : Mem)
    (rFileName : Str) (e : String) (h : decodeBitmap fi rFileName = .error e) :
    loadImageAutoGrayscale fi hostAlloc fresh rFileName = .error e := by
  simp [loadImageAutoGrayscale, h]

/-- When the filter stage completes, both filter calls reported no error. -/
theorem sobelStage_filters (w : World) (oHostSrc : ImageCPU) (stage : SobelStage)
    (hst : sobelStage w oHostSrc = .ok stage) :
    ∃ dataH dataV : Mem,
      w.sobelHoriz stage.callH = some dataH ∧ w.sobelVert stage.callV = some dataV := by
  unfold sobelStage at hst
  split at hst
  · cases hst
  · dsimp only at hst
    split at hst
    · cases hst
    · split at hst
      · cases hst
      · split at hst
        · cases hst
        · rename_i dataH hH
          split at hst
          · cases hst
          · rename_i dataV hV
            split at hst
            · cases hst
            · split at hst
              · cases hst
              · cases hst
                exact ⟨dataH, dataV, hH, hV⟩

/-- With the three device images allocated, a filter call that reports an
error makes the filter stage raise. -/
theorem sobelStage_raises (w : World) (oHostSrc : ImageCPU)
    (oDeviceSrc oDeviceDstH oDeviceDstV : ImageNPP)
    (h0 : ImageNPP.ofHost (w.deviceAlloc 0) w.fresh oHostSrc = some oDeviceSrc)
    (h1 : ImageNPP.create (w.deviceAlloc 1) w.fresh (castUInt (castInt oDeviceSrc.width))
      (castUInt (castInt oDeviceSrc.height)) = some oDeviceDstH)
    (h2 : ImageNPP.create (w.deviceAlloc 2) w.fresh (castUInt (castInt oDeviceSrc.width))
      (castUInt (castInt oDeviceSrc.height)) = some oDeviceDstV)
    (hfail :
      w.sobelHoriz ⟨oDeviceSrc.data, oDeviceSrc.pitch,
          (castInt oDeviceSrc.width, castInt oDeviceSrc.height), (0, 0),
          oDeviceDstH.data, oDeviceDstH.pitch,
          (castInt oDeviceSrc.width, castInt oDeviceSrc.height), BorderType.replicate⟩ = none ∨
      w.sobelVert ⟨oDeviceSrc.data, oDeviceSrc.pitch,
          (castInt oDeviceSrc.width, castInt oDeviceSrc.height), (0, 0),
          oDeviceDstV.data, oDeviceDstV.pitch,
          (castInt oDeviceSrc.width, castInt oDeviceSrc.height), BorderType.replicate⟩ = none) :
    ∃ failure : StageFailure, sobelStage w oHostSrc = .error failure := by
  unfold sobelStage
  rw [h0]
  dsimp only
  rw [h1]
  dsimp only
  rw [h2]
  dsimp only
  cases hH : w.sobelHoriz ⟨oDeviceSrc.data, oDeviceSrc.pitch,
          (castInt oDeviceSrc.width, castInt oDeviceSrc.height), (0, 0),
          oDeviceDstH.data, oDeviceDstH.pitch,
          (castInt oDeviceSrc.width, castInt oDeviceSrc.height), BorderType.replicate⟩ with
  | none => exact ⟨_, rfl⟩
  | some dataH =>
    rcases hfail with hf | hf
    · rw [hH] at hf; cases hf
    · dsimp only
      rw [hf]
      exact ⟨_, rfl⟩

/-- C6, as stated, fails: in a world without a capable device, in which the
selected input file cannot be opened and nothing can be saved, `main` ends
with exit status 0 although no output image was written. -/
theorem exit_status_counterexample :
    printfNPPinfo (sampleWorld false false false) = false ∧
      (sampleWorld false false false).canOpen
        (selectInput (sampleWorld false false false).hasInputFlag
          (sampleWorld false false false).filePath
          (sampleWorld false false false).canOpen) = false ∧
      (main (sampleWorld false false false)).writtenNames = [] ∧
      (main (sampleWorld false false false)).exitCode = 0 := by
  decide

/-- C6, amended: in every run of `main` in which the device capability check
passes, the exit status is 0 exactly when both output images were saved and
1 (`EXIT_FAILURE`) otherwise.  It is 1 when the selected input file cannot be
opened; when the loader raises (unknown format, a format that cannot be read
or a failed load, a failed conversion to grayscale); when, the device images
being allocated, a filter call reports an error; and when saving either
output fails (`FreeImage_Save` returns false).  A run that ends with status 0
opened its input, loaded it, got no error from either filter call and wrote
both files by successful `FreeImage_Save` calls. -/
theorem exit_status (w : World) (sFilename : Str) (hcap : printfNPPinfo w = true)
    (hsel : sFilename = selectInput w.hasInputFlag w.filePath w.canOpen) :
    ((main w).exitCode = 0 ↔
      (main w).writtenNames = [resultFilenameH sFilename, resultFilenameV sFilename]) ∧
    ((main w).exitCode = 0 ∨ (main w).exitCode = 1) ∧
    (w.canOpen sFilename = false → (main w).exitCode = 1) ∧
    (w.canOpen sFilename = true →
      (∀ e : String,
        loadImageAutoGrayscale w.fi (w.hostAlloc 0) w.fresh sFilename = .error e →
        (main w).exitCode = 1) ∧
      (w.fi.getFileType sFilename = FIF.unknown →
        w.fi.getFIFFromFilename sFilename = FIF.unknown → (main w).exitCode = 1) ∧
      (∀ eFormat : FIF, eFormat ≠ FIF.unknown →
        (w.fi.getFileType sFilename = eFormat ∨
          (w.fi.getFileType sFilename = FIF.unknown ∧
            w.fi.getFIFFromFilename sFilename = eFormat)) →
        (w.fi.fifSupportsReading eFormat = false ∨ w.fi.load eFormat sFilename = none) →
        (main w).exitCode = 1) ∧
      (∀ (eFormat : FIF) (bitmap : FIBitmap), eFormat ≠ FIF.unknown →
        (w.fi.getFileType sFilename = eFormat ∨
          (w.fi.getFileType sFilename = FIF.unknown ∧
            w.fi.getFIFFromFilename sFilename = eFormat)) →
        w.fi.fifSupportsReading eFormat = true →
        w.fi.load eFormat sFilename = some bitmap →
        (bitmap.colorType ≠ ColorType.minisblack ∨ bitmap.bpp ≠ 8) →
        w.fi.convertToGreyscale bitmap = none →
        (main w).exitCode = 1)) ∧
    (∀ (oHostSrc : ImageCPU) (oDeviceSrc oDeviceDstH oDeviceDstV : ImageNPP),
      w.canOpen sFilename = true →
      loadImageAutoGrayscale w.fi (w.hostAlloc 0) w.fresh sFilename = .ok oHostSrc →
      ImageNPP.ofHost (w.deviceAlloc 0) w.fresh oHostSrc = some oDeviceSrc →
      ImageNPP.create (w.deviceAlloc 1) w.fresh (castUInt (castInt oDeviceSrc.width))
        (castUInt (castInt oDeviceSrc.height)) = some oDeviceDstH →
      ImageNPP.create (w.deviceAlloc 2) w.fresh (castUInt (castInt oDeviceSrc.width))
        (castUInt (castInt oDeviceSrc.height)) = some oDeviceDstV →
      (w.sobelHoriz ⟨oDeviceSrc.data, oDeviceSrc.pitch,
          (castInt oDeviceSrc.width, castInt oDeviceSrc.height), (0, 0),
          oDeviceDstH.data, oDeviceDstH.pitch,
          (castInt oDeviceSrc.width, castInt oDeviceSrc.height), BorderType.replicate⟩ = none →
        (main w).exitCode = 1) ∧
      (w.sobelVert ⟨oDeviceSrc.data, oDeviceSrc.pitch,
          (castInt oDeviceSrc.width, castInt oDeviceSrc.height), (0, 0),
          oDeviceDstV.data, oDeviceDstV.pitch,
          (castInt oDeviceSrc.width, castInt oDeviceSrc.height), BorderType.replicate⟩ = none →
        (main w).exitCode = 1)) ∧
    (∀ (oHostSrc : ImageCPU) (stage : SobelStage),
      w.canOpen sFilename = true →
      loadImageAutoGrayscale w.fi (w.hostAlloc 0) w.fresh sFilename = .ok oHostSrc →
      sobelStage w oHostSrc = .ok stage →
      (∀ e : String,
        saveImageGrayscale w.fi (resultFilenameH sFilename) stage.oHostDstH = .error e →
        (main w).exitCode = 1) ∧
      (∀ e : String,
        saveImageGrayscale w.fi (resultFilenameV sFilename) stage.oHostDstV = .error e →
        (main w).exitCode = 1) ∧
      (∀ pResultBitmap : FIBitmap,
        w.fi.allocate stage.oHostDstH.width stage.oHostDstH.height 8 = some pResultBitmap →
        w.fi.save (saveFormat (resultFilenameH sFilename))
          (copyImageToBitmap stage.oHostDstH pResultBitmap) (resultFilenameH sFilename) = false →
        (main w).exitCode = 1) ∧
      (∀ pResultBitmap : FIBitmap,
        w.fi.allocate stage.oHostDstV.width stage.oHostDstV.height 8 = some pResultBitmap →
        w.fi.save (saveFormat (resultFilenameV sFilename))
          (copyImageToBitmap stage.oHostDstV pResultBitmap) (resultFilenameV sFilename) = false →
        (main w).exitCode = 1) ∧
      (∀ fileH fileV : SavedFile,
        saveImageGrayscale w.fi (resultFilenameH sFilename) stage.oHostDstH = .ok fileH →
        saveImageGrayscale w.fi (resultFilenameV sFilename) stage.oHostDstV = .ok fileV →
        (main w).exitCode = 0 ∧ (main w).written = [fileH, fileV])) ∧
    ((main w).exitCode = 0 →
      w.canOpen sFilename = true ∧
      ∃ (oHostSrc : ImageCPU) (stage : SobelStage) (dataH dataV : Mem)
          (fileH fileV : SavedFile),
        loadImageAutoGrayscale w.fi (w.hostAlloc 0) w.fresh sFilename = .ok oHostSrc ∧
        sobelStage w oHostSrc = .ok stage ∧
        (main w).filterCalls = [stage.callH, stage.callV] ∧
        w.sobelHoriz stage.callH = some dataH ∧ w.sobelVert stage.callV = some dataV ∧
        (main w).written = [fileH, fileV] ∧
        w.fi.save fileH.format fileH.bitmap (resultFilenameH sFilename) = true ∧
        w.fi.save fileV.format fileV.bitmap (resultFilenameV sFilename) = true) := by
  subst hsel
  have hcap' : ¬ printfNPPinfo w = false := by simp [hcap]
  -- the outcome of the run, stage by stage
  have hopenF : w.canOpen (selectInput w.hasInputFlag w.filePath w.canOpen) = false →
      (main w).exitCode = 1 ∧ (main w).written = [] := by
    intro hopen
    simp [main, hcap, hopen, EXIT_FAILURE]
  have hloadF : w.canOpen (selectInput w.hasInputFlag w.filePath w.canOpen) = true →
      ∀ e : String,
        loadImageAutoGrayscale w.fi (w.hostAlloc 0) w.fresh
          (selectInput w.hasInputFlag w.filePath w.canOpen) = .error e →
        (main w).exitCode = 1 ∧ (main w).written = [] := by
    intro hopen e hload
    simp [main, hcap, hopen, hload, EXIT_FAILURE]
  have hstageF : w.canOpen (selectInput w.hasInputFlag w.filePath w.canOpen) = true →
      ∀ (oHostSrc : ImageCPU) (failure : StageFailure),
        loadImageAutoGrayscale w.fi (w.hostAlloc 0) w.fresh
          (selectInput w.hasInputFlag w.filePath w.canOpen) = .ok oHostSrc →
        sobelStage w oHostSrc = .error failure →
        (main w).exitCode = 1 ∧ (main w).written = [] := by
    intro hopen oHostSrc failure hload hstage
    simp [main, hcap, hopen, hload, hstage, EXIT_FAILURE]
  have hsaveHF : w.canOpen (selectInput w.hasInputFlag w.filePath w.canOpen) = true →
      ∀ (oHostSrc : ImageCPU) (stage : SobelStage) (e : String),
        loadImageAutoGrayscale w.fi (w.hostAlloc 0) w.fresh
          (selectInput w.hasInputFlag w.filePath w.canOpen) = .ok oHostSrc →
        sobelStage w oHostSrc = .ok stage →
        saveImageGrayscale w.fi
          (resultFilenameH (selectInput w.hasInputFlag w.filePath w.canOpen))
          stage.oHostDstH = .error e →
        (main w).exitCode = 1 ∧ (main w).written = [] := by
    intro hopen oHostSrc stage e hload hstage hH
    simp [main, hcap, hopen, hload, hstage, hH, EXIT_FAILURE]
  have hsaveVF : w.canOpen (selectInput w.hasInputFlag w.filePath w.canOpen) = true →
      ∀ (oHostSrc : ImageCPU) (stage : SobelStage) (fileH : SavedFile) (e : String),
        loadImageAutoGrayscale w.fi (w.hostAlloc 0) w.fresh
          (selectInput w.hasInputFlag w.filePath w.canOpen) = .ok oHostSrc →
        sobelStage w oHostSrc = .ok stage →
        saveImageGrayscale w.fi
          (resultFilenameH (selectInput w.hasInputFlag w.filePath w.canOpen))
          stage.oHostDstH = .ok fileH →
        saveImageGrayscale w.fi
          (resultFilenameV (selectInput w.hasInputFlag w.filePath w.canOpen))
          stage.oHostDstV = .error e →
        (main w).exitCode = 1 ∧ (main w).written = [fileH] := by
    intro hopen oHostSrc stage fileH e hload hstage hH hV
    simp [main, hcap, hopen, hload, hstage, hH, hV, EXIT_FAILURE]
  have hok : w.canOpen (selectInput w.hasInputFlag w.filePath w.canOpen) = true →
      ∀ (oHostSrc : ImageCPU) (stage : SobelStage) (fileH fileV : SavedFile),
        loadImageAutoGrayscale w.fi (w.hostAlloc 0) w.fresh
          (selectInput w.hasInputFlag w.filePath w.canOpen) = .ok oHostSrc →
        sobelStage w oHostSrc = .ok stage →
        saveImageGrayscale w.fi
          (resultFilenameH (selectInput w.hasInputFlag w.filePath w.canOpen))
          stage.oHostDstH = .ok fileH →
        saveImageGrayscale w.fi
          (resultFilenameV (selectInput w.hasInputFlag w.filePath w.canOpen))
          stage.oHostDstV = .ok fileV →
        (main w).exitCode = 0 ∧ (main w).written = [fileH, fileV] ∧
          (main w).filterCalls = [stage.callH, stage.callV] := by
    intro hopen oHostSrc stage fileH fileV hload hstage hH hV
    simp [main, hcap, hopen, hload, hstage, hH, hV, EXIT_SUCCESS]
  -- a run that ends with status 0 went through every stage
  have hzero : (main w).exitCode = 0 →
      w.canOpen (selectInput w.hasInputFlag w.filePath w.canOpen) = true ∧
      ∃ (oHostSrc : ImageCPU) (stage : SobelStage) (fileH fileV : SavedFile),
        loadImageAutoGrayscale w.fi (w.hostAlloc 0) w.fresh
          (selectInput w.hasInputFlag w.filePath w.canOpen) = .ok oHostSrc ∧
        sobelStage w oHostSrc = .ok stage ∧
        saveImageGrayscale w.fi
          (resultFilenameH (selectInput w.hasInputFlag w.filePath w.canOpen))
          stage.oHostDstH = .ok fileH ∧
        saveImageGrayscale w.fi
          (resultFilenameV (selectInput w.hasInputFlag w.filePath w.canOpen))
          stage.oHostDstV = .ok fileV := by
    intro hz
    cases hopen : w.canOpen (selectInput w.hasInputFlag w.filePath w.canOpen) with
    | false => rw [(hopenF hopen).1] at hz; cases hz
    | true =>
      refine ⟨rfl, ?_⟩
      cases hload : loadImageAutoGrayscale w.fi (w.hostAlloc 0) w.fresh
          (selectInput w.hasInputFlag w.filePath w.canOpen) with
      | error e => rw [(hloadF hopen e hload).1] at hz; cases hz
      | ok oHostSrc =>
        cases hstage : sobelStage w oHostSrc with
        | error failure => rw [(hstageF hopen oHostSrc failure hload hstage).1] at hz; cases hz
        | ok stage =>
          cases hH : saveImageGrayscale w.fi
              (resultFilenameH (selectInput w.hasInputFlag w.filePath w.canOpen))
              stage.oHostDstH with
          | error e => rw [(hsaveHF hopen oHostSrc stage e hload hstage hH).1] at hz; cases hz
          | ok fileH =>
            cases hV : saveImageGrayscale w.fi
                (resultFilenameV (selectInput w.hasInputFlag w.filePath w.canOpen))
                stage.oHostDstV with
            | error e =>
              rw [(hsaveVF hopen oHostSrc stage fileH e hload hstage hH hV).1] at hz; cases hz
            | ok fileV => exact ⟨oHostSrc, stage, fileH, fileV, rfl, hstage, hH, hV⟩
  have hcode : (main w).exitCode = 0 ∨ (main w).exitCode = 1 := by
    cases hopen : w.canOpen (selectInput w.hasInputFlag w.filePath w.canOpen) with
    | false => exact Or.inr (hopenF hopen).1
    | true =>
      cases hload : loadImageAutoGrayscale w.fi (w.hostAlloc 0) w.fresh
          (selectInput w.hasInputFlag w.filePath w.canOpen) with
      | error e => exact Or.inr (hloadF hopen e hload).1
      | ok oHostSrc =>
        cases hstage : sobelStage w oHostSrc with
        | error failure => exact Or.inr (hstageF hopen oHostSrc failure hload hstage).1
        | ok stage =>
          cases hH : saveImageGrayscale w.fi
              (resultFilenameH (selectInput w.hasInputFlag w.filePath w.canOpen))
              stage.oHostDstH with
          | error e => exact Or.inr (hsaveHF hopen oHostSrc stage e hload hstage hH).1
          | ok fileH =>
            cases hV : saveImageGrayscale w.fi
                (resultFilenameV (selectInput w.hasInputFlag w.filePath w.canOpen))
                stage.oHostDstV with
            | error e =>
              exact Or.inr (hsaveVF hopen oHostSrc stage fileH e hload hstage hH hV).1
            | ok fileV => exact Or.inl (hok hopen oHostSrc stage fileH fileV hload hstage hH hV).1
  have hnames : (main w).writtenNames =
      [resultFilenameH (selectInput w.hasInputFlag w.filePath w.canOpen),
       resultFilenameV (selectInput w.hasInputFlag w.filePath w.canOpen)] →
      (main w).exitCode = 0 := by
    intro hn
    rcases hcode with h0 | h1
    · exact h0
    · exfalso
      have hlen : (main w).written.length = 2 := by
        have := congrArg List.length hn
        simpa [Run.writtenNames] using this
      cases hopen : w.canOpen (selectInput w.hasInputFlag w.filePath w.canOpen) with
      | false => rw [(hopenF hopen).2] at hlen; cases hlen
      | true =>
        cases hload : loadImageAutoGrayscale w.fi (w.hostAlloc 0) w.fresh
            (selectInput w.hasInputFlag w.filePath w.canOpen) with
        | error e => rw [(hloadF hopen e hload).2] at hlen; cases hlen
        | ok oHostSrc =>
          cases hstage : sobelStage w oHostSrc with
          | error failure =>
            rw [(hstageF hopen oHostSrc failure hload hstage).2] at hlen; cases hlen
          | ok stage =>
            cases hH : saveImageGrayscale w.fi
                (resultFilenameH (selectInput w.hasInputFlag w.filePath w.canOpen))
                stage.oHostDstH with
            | error e =>
              rw [(hsaveHF hopen oHostSrc stage e hload hstage hH).2] at hlen; cases hlen
            | ok fileH =>
              cases hV : saveImageGrayscale w.fi
                  (resultFilenameV (selectInput w.hasInputFlag w.filePath w.canOpen))
                  stage.oHostDstV with
              | error e =>
                rw [(hsaveVF hopen oHostSrc stage fileH e hload hstage hH hV).2] at hlen
                cases hlen
              | ok fileV =>
                rw [(hok hopen oHostSrc stage fileH fileV hload hstage hH hV).1] at h1
                cases h1
  refine ⟨⟨?_, hnames⟩, hcode, fun h => (hopenF h).1, ?_, ?_, ?_, ?_⟩
  · intro hz
    obtain ⟨hopen, oHostSrc, stage, fileH, fileV, hload, hstage, hH, hV⟩ := hzero hz
    rw [Run.writtenNames, (hok hopen oHostSrc stage fileH fileV hload hstage hH hV).2.1]
    simp [(saveImageGrayscale_ok _ _ _ _ hH).1, (saveImageGrayscale_ok _ _ _ _ hV).1]
  · intro hopen
    have hdec := decodeBitmap_raises w.fi (selectInput w.hasInputFlag w.filePath w.canOpen)
    refine ⟨fun e hload => (hloadF hopen e hload).1, ?_, ?_, ?_⟩
    · intro h1 h2
      exact (hloadF hopen _ (loadImageAutoGrayscale_raises _ _ _ _ _ (hdec.1 h1 h2))).1
    · intro eFormat hne hd hl
      exact (hloadF hopen _
        (loadImageAutoGrayscale_raises _ _ _ _ _ (hdec.2.1 eFormat hne hd hl))).1
    · intro eFormat bitmap hne hd hs hl hg hc
      exact (hloadF hopen _
        (loadImageAutoGrayscale_raises _ _ _ _ _
          (hdec.2.2 eFormat bitmap hne hd hs hl hg hc))).1
  · intro oHostSrc oDeviceSrc oDeviceDstH oDeviceDstV hopen hload h0 h1 h2
    constructor
    · intro hf
      obtain ⟨failure, hstage⟩ :=
        sobelStage_raises w oHostSrc oDeviceSrc oDeviceDstH oDeviceDstV h0 h1 h2 (Or.inl hf)
      exact (hstageF hopen oHostSrc failure hload hstage).1
    · intro hf
      obtain ⟨failure, hstage⟩ :=
        sobelStage_raises w oHostSrc oDeviceSrc oDeviceDstH oDeviceDstV h0 h1 h2 (Or.inr hf)
      exact (hstageF hopen oHostSrc failure hload hstage).1
  · intro oHostSrc stage hopen hload hstage
    have hHfail : ∀ e : String,
        saveImageGrayscale w.fi
          (resultFilenameH (selectInput w.hasInputFlag w.filePath w.canOpen))
          stage.oHostDstH = .error e → (main w).exitCode = 1 :=
      fun e hH => (hsaveHF hopen oHostSrc stage e hload hstage hH).1
    have hVfail : ∀ e : String,
        saveImageGrayscale w.fi
          (resultFilenameV (selectInput w.hasInputFlag w.filePath w.canOpen))
          stage.oHostDstV = .error e → (main w).exitCode = 1 := by
      intro e hV
      cases hH : saveImageGrayscale w.fi
          (resultFilenameH (selectInput w.hasInputFlag w.filePath w.canOpen))
          stage.oHostDstH with
      | error e' => exact hHfail e' hH
      | ok fileH => exact (hsaveVF hopen oHostSrc stage fileH e hload hstage hH hV).1
    refine ⟨hHfail, hVfail, ?_, ?_, ?_⟩
    · intro bmp ha hs
      apply hHfail "Failed to save result image"
      rw [saveImageGrayscale_eq _ _ _ bmp ha, if_neg (by simp [hs])]
    · intro bmp ha hs
      apply hVfail "Failed to save result image"
      rw [saveImageGrayscale_eq _ _ _ bmp ha, if_neg (by simp [hs])]
    · intro fileH fileV hH hV
      exact ⟨(hok hopen oHostSrc stage fileH fileV hload hstage hH hV).1,
        (hok hopen oHostSrc stage fileH fileV hload hstage hH hV).2.1⟩
  · intro hz
    obtain ⟨hopen, oHostSrc, stage, fileH, fileV, hload, hstage, hH, hV⟩ := hzero hz
    obtain ⟨dataH, dataV, hfH, hfV⟩ := sobelStage_filters w oHostSrc stage hstage
    obtain ⟨hnH, hfmtH, hsH, _⟩ := saveImageGrayscale_ok _ _ _ _ hH
    obtain ⟨hnV, hfmtV, hsV, _⟩ := saveImageGrayscale_ok _ _ _ _ hV
    have hr := hok hopen oHostSrc stage fileH fileV hload hstage hH hV
    exact ⟨hopen, oHostSrc, stage, dataH, dataV, fileH, fileV, hload, hstage, hr.2.2, hfH, hfV,
      hr.2.1, by rw [hfmtH]; exact hsH, by rw [hfmtV]; exact hsV⟩

/-- Witness for C6 (amended): with a capable device, a run in which every
stage succeeds ends with status 0 and both files written, a run in which the
input cannot be opened ends with status 1, and so does a run in which
`FreeImage_Save` fails. -/
theorem exit_status_witness :
    (main (sampleWorld true true true)).exitCode = 0 ∧
      (main (sampleWorld true true true)).writtenNames =
        ["output/Lena_edges_horizontal.png".toList, "output/Lena_edges_vertical.png".toList] ∧
      (main (sampleWorld true false true)).exitCode = 1 ∧
      (main (sampleWorld true true false)).exitCode = 1 :=
  ⟨(exit_status (sampleWorld true true true) "input/Lena.pgm".toList rfl rfl).1.mpr (by decide),
    by decide,
    (exit_status (sampleWorld true false true) "input/Lena.pgm".toList rfl rfl).2.2.1 rfl,
    ((exit_status (sampleWorld true true false) "input/Lena.pgm".toList rfl rfl).2.1).resolve_left
      (by decide)⟩

end EdgeDetectionNPP
